import Mathlib

/-!
Verification development for the seat reservation subsystem of the
tiki-taka backend (src/services/seat.service.ts, src/services/order.service.ts,
src/services/realtime.service.ts, src/jobs/seatHoldExpiration.job.ts and the
mongoose models).  The TypeScript services are shallowly embedded as pure
functions over an explicit database state; every mongoose query/update is
translated to the corresponding list operation, and thrown AppError values
become an explicit error result paired with the database state at the moment
of the throw (mongo updates that committed before the throw stay committed,
exactly as in the source).
-/

namespace TikiTaka

/-- SEAT_STATUS from config/constants.ts. -/
inductive SeatStatus
  | available
  | held
  | sold
deriving DecidableEq, Repr

/-- PAYMENT_STATUS from config/constants.ts. -/
inductive PaymentStatus
  | pending
  | succeeded
  | failed
  | refunded
deriving DecidableEq, Repr

/-- EVENT_STATUS from config/constants.ts. -/
inductive EventStatus
  | draft
  | published
  | cancelled
  | completed
deriving DecidableEq, Repr

/-- One EventSeatState document (models/EventSeatState.model.ts): status with
optional holdId / orderId references and a lastUpdated timestamp (modelled as
milliseconds since epoch, like Date.now()). -/
structure SeatRow where
  eventId : Nat
  seatId : String
  status : SeatStatus
  holdId : Option Nat
  orderId : Option Nat
  lastUpdated : Nat
deriving DecidableEq, Repr

/-- One SeatHold document (models/SeatHold.model.ts). -/
structure Hold where
  id : Nat
  eventId : Nat
  seatIds : List String
  sessionId : String
  userId : Option Nat
  expiresAt : Nat
deriving DecidableEq, Repr

/-- A pricing zone of an event (models/Event.model.ts pricingZones map).
Monetary amounts are modelled as rationals. -/
structure PricingZone where
  name : String
  price : ℚ
deriving DecidableEq, Repr

/-- The parts of an Event document the reservation subsystem reads or writes. -/
structure EventDoc where
  id : Nat
  status : EventStatus
  pricingZones : List (String × PricingZone)
  soldCount : Nat
deriving DecidableEq, Repr

/-- Monetary breakdown persisted on an order. -/
structure Breakdown where
  subtotal : ℚ
  fees : ℚ
  tax : ℚ
  total : ℚ
deriving DecidableEq, Repr

/-- One Order document (models/Order.model.ts), restricted to the seat-bound
checkout path the claims are about. -/
structure OrderDoc where
  id : Nat
  eventId : Nat
  seatIds : List String
  userId : Option Nat
  paymentStatus : PaymentStatus
  paymentIntentId : String
  ticketIds : List Nat
  breakdown : Breakdown
deriving DecidableEq, Repr

/-- One Ticket document (models/Ticket.model.ts) as created by finalizeOrder. -/
structure Ticket where
  id : Nat
  orderId : Nat
  eventId : Nat
  seatId : String
deriving DecidableEq, Repr

/-- The redis side-channel entry written under the key hold:{holdId}. -/
structure CacheEntry where
  holdId : Nat
  eventId : Nat
  seatIds : List String
  sessionId : String
  expiresAt : Nat
deriving DecidableEq, Repr

/-- The whole persistent state: mongo collections, the redis mirror, and the
counters standing in for fresh ObjectIds. -/
structure DB where
  events : List EventDoc
  seats : List SeatRow
  holds : List Hold
  orders : List OrderDoc
  tickets : List Ticket
  cache : List (Nat × CacheEntry)
  nextHoldId : Nat
  nextOrderId : Nat
  nextTicketId : Nat
deriving DecidableEq, Repr

/-- AppError values thrown by the embedded services, one constructor per
throw site relevant to the claims. -/
inductive AppErr
  | noSeatsSelected
  | tooManySeats
  | eventNotFound
  | eventNotPublished
  | seatsMissing
  | seatsHeldByAnother
  | concurrentModification
  | seatsUnavailable
  | holdNotFound
  | notHoldOwner
  | orderNotFound
  | seatNotFoundForOrder
  | seatAlreadySold
  | noPricingForSection
deriving DecidableEq, Repr

/-- The HTTP status code each embedded AppError is constructed with in the
source (the literal second argument of each new AppError(...)). -/
def statusCode : AppErr → Nat
  | .noSeatsSelected => 400
  | .tooManySeats => 400
  | .eventNotFound => 404
  | .eventNotPublished => 400
  | .seatsMissing => 400
  | .seatsHeldByAnother => 409
  | .concurrentModification => 409
  | .seatsUnavailable => 409
  | .holdNotFound => 404
  | .notHoldOwner => 403
  | .orderNotFound => 404
  | .seatNotFoundForOrder => 400
  | .seatAlreadySold => 409
  | .noPricingForSection => 400

/-- SEAT_HOLD_EXPIRY_MINUTES default (constants.ts), in milliseconds. -/
def seatHoldExpiryMs : Nat := 10 * 60 * 1000

/-- SEAT_HOLD_CONFIG.maxSeatsPerHold (constants.ts). -/
def maxSeatsPerHold : Nat := 10

/-- EventSeatState.updateMany with a filter and a field update: every matching
row is rewritten, and the second component is the reported modifiedCount.  In
every update the services issue, the update genuinely changes each matched row
(the filter pins a status the update replaces), so matchedCount and
modifiedCount coincide. -/
def updateSeats (db : DB) (p : SeatRow → Bool) (f : SeatRow → SeatRow) : DB × Nat :=
  ({ db with seats := db.seats.map (fun r => if p r then f r else r) },
   (db.seats.filter p).length)

/-- Event.findById. -/
def findEvent (db : DB) (eventId : Nat) : Option EventDoc :=
  db.events.find? (fun e => e.id == eventId)

/-- SeatHold.findById. -/
def findHold (db : DB) (holdId : Nat) : Option Hold :=
  db.holds.find? (fun h => h.id == holdId)

/-- Order.findById. -/
def findOrder (db : DB) (orderId : Nat) : Option OrderDoc :=
  db.orders.find? (fun o => o.id == orderId)

/-- Replace the hold with the same id (mongoose document save). -/
def saveHold (db : DB) (h : Hold) : DB :=
  { db with holds := db.holds.map (fun x => if x.id == h.id then h else x) }

/-- Replace the order with the same id (mongoose document save). -/
def saveOrder (db : DB) (o : OrderDoc) : DB :=
  { db with orders := db.orders.map (fun x => if x.id == o.id then o else x) }

/-- Replace the event with the same id (mongoose document save). -/
def saveEvent (db : DB) (e : EventDoc) : DB :=
  { db with events := db.events.map (fun x => if x.id == e.id then e else x) }

/-- redisClient.setEx for the hold side-channel key (replace or insert). -/
def cacheSet (db : DB) (entry : CacheEntry) : DB :=
  { db with cache :=
      (entry.holdId, entry) :: db.cache.filter (fun kv => kv.fst != entry.holdId) }

/-- redisClient.del for the hold side-channel key. -/
def cacheDel (db : DB) (holdId : Nat) : DB :=
  { db with cache := db.cache.filter (fun kv => kv.fst != holdId) }

/-- SeatHold.deleteOne by id. -/
def deleteHold (db : DB) (holdId : Nat) : DB :=
  { db with holds := db.holds.filter (fun h => h.id != holdId) }

/-- JavaScript Array.from(new Set([...a, ...b])): the elements of a followed by
the elements of b not already seen, first occurrence kept. -/
def insertUnique (a : List String) (s : String) : List String :=
  if a.contains s then a else a ++ [s]

def unionList (a b : List String) : List String :=
  b.foldl insertUnique a

/-- Filter of the conditional grant updates: rows of the event among the
given seat ids that are still AVAILABLE. -/
def availIn (eventId : Nat) (ids : List String) : SeatRow → Bool :=
  fun r => r.eventId == eventId && ids.contains r.seatId &&
    r.status == SeatStatus.available

/-- Filter of the held-seat updates: rows of the event among the given seat
ids that are HELD. -/
def heldIn (eventId : Nat) (ids : List String) : SeatRow → Bool :=
  fun r => r.eventId == eventId && ids.contains r.seatId &&
    r.status == SeatStatus.held

/-- Filter of the finalize update: rows of the event among the order seats
whose status is not SOLD. -/
def notSoldIn (eventId : Nat) (ids : List String) : SeatRow → Bool :=
  fun r => r.eventId == eventId && ids.contains r.seatId &&
    r.status != SeatStatus.sold

/-- Filter of the hold-scoped reclamation updates: rows HELD under the given
hold id. -/
def heldUnder (hid : Nat) : SeatRow → Bool :=
  fun r => r.holdId == some hid && r.status == SeatStatus.held

/-- Filter of the by-document updateOne of assertSeatAvailability: the row
with this key while still HELD. -/
def heldAtKey (eventId : Nat) (seatId : String) : SeatRow → Bool :=
  fun r => r.eventId == eventId && r.seatId == seatId &&
    r.status == SeatStatus.held

/-- Field update flipping a row to HELD under a hold. -/
def toHeld (hid now : Nat) : SeatRow → SeatRow :=
  fun r => { r with status := SeatStatus.held, holdId := some hid, lastUpdated := now }

/-- Field update releasing a row to AVAILABLE, unsetting holdId. -/
def toAvailable : SeatRow → SeatRow :=
  fun r => { r with status := SeatStatus.available, holdId := none }

/-- Field update flipping a row to SOLD under an order. -/
def toSold (oid now : Nat) : SeatRow → SeatRow :=
  fun r => { r with status := SeatStatus.sold, orderId := some oid, lastUpdated := now }

/-- Input of seat.service holdSeats. -/
structure HoldSeatsInput where
  eventId : Nat
  seatIds : List String
  sessionId : String
  userId : Option Nat
deriving DecidableEq, Repr

/-- Input of seat.service releaseSeats. -/
structure ReleaseSeatsInput where
  holdId : Nat
  sessionId : String
deriving DecidableEq, Repr

/-- Whether a held seat row points at a stale hold: the hold document is
missing, or its expiresAt lies in the past (seat.service.ts line 525). -/
def isStaleHeld (db : DB) (now : Nat) (r : SeatRow) : Bool :=
  match r.holdId with
  | none => true
  | some hid =>
    match findHold db hid with
    | none => true
    | some h => decide (h.expiresAt < now)

/-- Seat ids of the held snapshot rows whose hold is stale (seat.service.ts
lines 522 to 528). -/
def staleSeatIdsOf (db : DB) (now : Nat) (heldSeats : List SeatRow) : List String :=
  (heldSeats.filter (fun r => isStaleHeld db now r)).map (fun r => r.seatId)

/-- The opportunistic stale-hold reclamation of holdSeats (seat.service.ts
lines 529 to 534): conditionally flip the stale held rows back to AVAILABLE. -/
def staleReclaim (db : DB) (now : Nat) (eventId : Nat)
    (heldSeats : List SeatRow) : DB :=
  let ids := staleSeatIdsOf db now heldSeats
  if ids.isEmpty then db
  else (updateSeats db (heldIn eventId ids) toAvailable).fst

/-- The commit step of the fresh-hold path of holdSeats (seat.service.ts
lines 608 to 655): create the SeatHold row, conditionally flip the requested
seats AVAILABLE to HELD, and on a partial flip delete the hold row and throw
409 without reverting the seats it did flip.  The function is applied to the
database state at commit time, which under concurrent interference may
differ from the state the availability check observed. -/
def createHoldCommit (db : DB) (now : Nat) (inp : HoldSeatsInput) :
    DB × Except AppErr Hold :=
  let expiresAt := now + seatHoldExpiryMs
  let hold : Hold :=
    { id := db.nextHoldId, eventId := inp.eventId, seatIds := inp.seatIds,
      sessionId := inp.sessionId, userId := inp.userId, expiresAt := expiresAt }
  let db1 := { db with holds := db.holds ++ [hold], nextHoldId := db.nextHoldId + 1 }
  let upd := updateSeats db1 (availIn inp.eventId inp.seatIds) (toHeld hold.id now)
  if upd.snd != inp.seatIds.length then
    (deleteHold upd.fst hold.id, Except.error AppErr.concurrentModification)
  else
    (cacheSet upd.fst
      { holdId := hold.id, eventId := inp.eventId, seatIds := inp.seatIds,
        sessionId := inp.sessionId, expiresAt := expiresAt },
     Except.ok hold)

/-- Tail of the hold-extension path of holdSeats (seat.service.ts lines 578
to 596): extend expiresAt and merge the full requested seat list into the
hold seatIds, save, refresh the cache entry and return the hold. -/
def finishExtend (db : DB) (now : Nat) (inp : HoldSeatsInput) (h0 : Hold) :
    DB × Except AppErr Hold :=
  let expiresAt := now + seatHoldExpiryMs
  let h1 := { h0 with expiresAt := expiresAt, seatIds := unionList h0.seatIds inp.seatIds }
  let db1 := saveHold db h1
  let db2 := cacheSet db1
    { holdId := h1.id, eventId := inp.eventId, seatIds := h1.seatIds,
      sessionId := inp.sessionId, expiresAt := expiresAt }
  (db2, Except.ok h1)

/-- Hold-extension path of holdSeats (seat.service.ts lines 551 to 597).
seats is the in-memory snapshot of the requested seat rows fetched before the
stale-hold reclamation; db is the database state after it. -/
def extendHold (db : DB) (now : Nat) (inp : HoldSeatsInput)
    (seats : List SeatRow) (h0 : Hold) : DB × Except AppErr Hold :=
  let seatsToAdd := (seats.filter (fun r => r.status == SeatStatus.available &&
    !(h0.seatIds.contains r.seatId))).map (fun r => r.seatId)
  if seatsToAdd.isEmpty then finishExtend db now inp h0
  else
    let upd := updateSeats db (availIn inp.eventId seatsToAdd) (toHeld h0.id now)
    if upd.snd != seatsToAdd.length then
      (upd.fst, Except.error AppErr.concurrentModification)
    else finishExtend upd.fst now inp h0

/-- holdSeats (seat.service.ts lines 479 to 655), embedded sequentially: the
validation checks, the stale-hold reclamation, the held-by-another check, and
then either the extension of the existing session hold or the fresh-hold
commit. -/
def holdSeats (db : DB) (now : Nat) (inp : HoldSeatsInput) :
    DB × Except AppErr Hold :=
  if inp.seatIds.length == 0 then (db, Except.error AppErr.noSeatsSelected)
  else if maxSeatsPerHold < inp.seatIds.length then
    (db, Except.error AppErr.tooManySeats)
  else
    match findEvent db inp.eventId with
    | none => (db, Except.error AppErr.eventNotFound)
    | some ev =>
      if ev.status != EventStatus.published then
        (db, Except.error AppErr.eventNotPublished)
      else
        let existingHold := db.holds.find? (fun h =>
          h.eventId == inp.eventId && h.sessionId == inp.sessionId)
        let seats := db.seats.filter (fun r =>
          r.eventId == inp.eventId && inp.seatIds.contains r.seatId)
        if seats.length != inp.seatIds.length then
          (db, Except.error AppErr.seatsMissing)
        else
          let heldSeats := seats.filter (fun r =>
            r.status == SeatStatus.held && r.holdId.isSome)
          let db1 := staleReclaim db now inp.eventId heldSeats
          let blocked := heldSeats.filter (fun r =>
            match r.holdId with
            | none => false
            | some hid =>
              match findHold db hid with
              | none => false
              | some h => h.sessionId != inp.sessionId && now ≤ h.expiresAt)
          if !blocked.isEmpty then (db1, Except.error AppErr.seatsHeldByAnother)
          else
            match existingHold with
            | some h0 => extendHold db1 now inp seats h0
            | none =>
              let unavailable := seats.filter (fun r =>
                r.status != SeatStatus.available)
              if !unavailable.isEmpty then
                (db1, Except.error AppErr.seatsUnavailable)
              else createHoldCommit db1 now inp

/-- releaseSeats (seat.service.ts lines 660 to 691). -/
def releaseSeats (db : DB) (inp : ReleaseSeatsInput) : DB × Except AppErr Unit :=
  match findHold db inp.holdId with
  | none => (db, Except.error AppErr.holdNotFound)
  | some h =>
    if h.sessionId != inp.sessionId then (db, Except.error AppErr.notHoldOwner)
    else
      let upd := updateSeats db (heldUnder h.id) toAvailable
      (cacheDel (deleteHold upd.fst h.id) inp.holdId, Except.ok ())

/-- One iteration of the cleanupExpiredHolds loop: conditionally reclaim the
seats of one expired hold, delete the hold row and its cache entry. -/
def reclaimHold (db : DB) (h : Hold) : DB :=
  let upd := updateSeats db (heldUnder h.id) toAvailable
  cacheDel (deleteHold upd.fst h.id) h.id

/-- cleanupExpiredHolds (seat.service.ts lines 760 to 798): select the holds
with expiresAt in the past and reclaim each; returns the cleaned count. -/
def cleanupExpiredHolds (db : DB) (now : Nat) : DB × Nat :=
  let expired := db.holds.filter (fun h => decide (h.expiresAt < now))
  (expired.foldl reclaimHold db, expired.length)

/-- Floor of a rational, computed by floor division of numerator by
denominator. -/
def ratFloor (q : ℚ) : ℤ := Int.fdiv q.num q.den

/-- JavaScript Math.round: round half toward positive infinity.  Float
arithmetic of the source is modelled over the rationals. -/
def jsRound (q : ℚ) : ℤ := ratFloor (q + 1 / 2)

/-- Math.round(q * 100) / 100, the two-decimal rounding used for money. -/
def round2 (q : ℚ) : ℚ := (jsRound (q * 100) : ℚ) / 100

/-- JavaScript String.split on a single separator character, over the
character list of the string. -/
def splitOnChar (c : Char) : List Char → List (List Char)
  | [] => [[]]
  | x :: rest =>
    let r := splitOnChar c rest
    if x == c then [] :: r
    else
      match r with
      | [] => [[x]]
      | y :: ys => (x :: y) :: ys

/-- seatId.split on the dash, as a list of strings. -/
def splitDash (s : String) : List String :=
  (splitOnChar (Char.ofNat 45) s.data).map (fun cs => String.mk cs)

/-- Section extraction from a seat id (order.service.ts lines 66 to 67):
split on the dash; if the first token is SEC the section is the second token,
otherwise the first.  A missing second token (undefined in JavaScript) is
modelled as the empty string. -/
def sectionOf (seatId : String) : String :=
  let parts := splitDash seatId
  let part1 := parts.headD ""
  if part1 == "SEC" then (parts.drop 1).headD "" else part1

/-- Pricing result of calculatePricing. -/
structure Pricing where
  subtotal : ℚ
  fees : ℚ
  tax : ℚ
  total : ℚ
deriving DecidableEq, Repr

/-- Per-seat zone price lookup of calculatePricing: fails with the 400
no-pricing error when a section has no zone. -/
def zonePrices (ev : EventDoc) : List String → Except AppErr (List ℚ)
  | [] => Except.ok []
  | s :: rest =>
    match ev.pricingZones.find? (fun z => z.fst == sectionOf s) with
    | none => Except.error AppErr.noPricingForSection
    | some z =>
      match zonePrices ev rest with
      | Except.error e => Except.error e
      | Except.ok ps => Except.ok (z.snd.price :: ps)

/-- calculatePricing (order.service.ts lines 51 to 81): event must exist and
be published; subtotal is the sum of zone prices; fees are 5 percent and tax
8 percent of the subtotal, each rounded to two decimals. -/
def calculatePricing (db : DB) (eventId : Nat) (seatIds : List String) :
    Except AppErr Pricing :=
  match findEvent db eventId with
  | none => Except.error AppErr.eventNotFound
  | some ev =>
    if ev.status != EventStatus.published then Except.error AppErr.eventNotPublished
    else
      match zonePrices ev seatIds with
      | Except.error e => Except.error e
      | Except.ok ps =>
        let subtotal := ps.sum
        let fees := round2 (subtotal * (5 / 100))
        let tax := round2 (subtotal * (8 / 100))
        let total := round2 (subtotal + fees + tax)
        Except.ok { subtotal := subtotal, fees := fees, tax := tax, total := total }

/-- The per-seat loop of assertSeatAvailability (order.service.ts lines 98 to
121), threading the database because the stale-hold branch issues an
updateOne.  sessionId is optional on the checkout input; ownership passes
when the hold sessionId equals it, or the caller is authenticated as the
hold userId. -/
def assertLoop (db : DB) (now : Nat) (sessionId : Option String)
    (userId : Option Nat) : List SeatRow → DB × Except AppErr Unit
  | [] => (db, Except.ok ())
  | r :: rest =>
    if r.status == SeatStatus.available then assertLoop db now sessionId userId rest
    else if r.status == SeatStatus.sold then (db, Except.error AppErr.seatAlreadySold)
    else
      match r.holdId with
      | none => assertLoop db now sessionId userId rest
      | some hid =>
        match findHold db hid with
        | none =>
          let upd := updateSeats db (heldAtKey r.eventId r.seatId) toAvailable
          assertLoop upd.fst now sessionId userId rest
        | some h =>
          if h.expiresAt < now then
            let upd := updateSeats db (heldAtKey r.eventId r.seatId) toAvailable
            assertLoop upd.fst now sessionId userId rest
          else if sessionId != some h.sessionId &&
              (match userId with
               | none => true
               | some u => h.userId != some u) then
            (db, Except.error AppErr.seatsHeldByAnother)
          else assertLoop db now sessionId userId rest

/-- assertSeatAvailability (order.service.ts lines 86 to 122). -/
def assertSeatAvailability (db : DB) (now : Nat) (eventId : Nat)
    (seatIds : List String) (sessionId : Option String) (userId : Option Nat) :
    DB × Except AppErr Unit :=
  let seats := db.seats.filter (fun r =>
    r.eventId == eventId && seatIds.contains r.seatId)
  if seats.length != seatIds.length then
    (db, Except.error AppErr.seatNotFoundForOrder)
  else assertLoop db now sessionId userId seats

/-- Ticket documents created by finalizeOrder, one per seat, with fresh ids
from the given counter. -/
def mkTickets (orderId eventId base : Nat) : List String → List Ticket
  | [] => []
  | s :: rest =>
    { id := base, orderId := orderId, eventId := eventId, seatId := s } ::
      mkTickets orderId eventId (base + 1) rest

/-- Tail of finalizeOrder after the conditional seat update succeeded
(order.service.ts lines 224 to 290): look up the event, create one ticket
per seat, mark the order SUCCEEDED with its ticketRefs, save it, and add the
seat count to the event soldCount. -/
def finalizeSuccess (db : DB) (o : OrderDoc) : DB × Except AppErr OrderDoc :=
  match findEvent db o.eventId with
  | none => (db, Except.error AppErr.eventNotFound)
  | some ev =>
    let newTickets := mkTickets o.id o.eventId db.nextTicketId o.seatIds
    let o1 :=
      { o with
        paymentStatus := PaymentStatus.succeeded
        ticketIds := newTickets.map (fun t => t.id) }
    let db2 := { db with
      tickets := db.tickets ++ newTickets,
      nextTicketId := db.nextTicketId + newTickets.length }
    let db3 := saveOrder db2 o1
    let db4 := saveEvent db3 { ev with soldCount := ev.soldCount + o.seatIds.length }
    (db4, Except.ok o1)

/-- The conditional seat flip of finalizeOrder (order.service.ts lines 204 to
221): updateMany restricted to the order seats with status not SOLD; when the
modified count differs from the seat count it throws 409 with the already
flipped seats left flipped. -/
def finalizeSeatsCommit (db : DB) (now : Nat) (o : OrderDoc) :
    DB × Except AppErr OrderDoc :=
  let upd := updateSeats db (notSoldIn o.eventId o.seatIds) (toSold o.id now)
  if upd.snd != o.seatIds.length then
    (upd.fst, Except.error AppErr.seatAlreadySold)
  else finalizeSuccess upd.fst o

/-- finalizeOrder (order.service.ts lines 193 to 291): return unchanged when
the order is already SUCCEEDED; otherwise conditionally flip the order seats
to SOLD, throw 409 on a partial flip (the flipped seats stay flipped, the
order stays as it was), create one ticket per seat, mark the order SUCCEEDED
and increment the event soldCount. -/
def finalizeOrder (db : DB) (now : Nat) (orderId : Nat) :
    DB × Except AppErr OrderDoc :=
  match findOrder db orderId with
  | none => (db, Except.error AppErr.orderNotFound)
  | some o =>
    if o.paymentStatus == PaymentStatus.succeeded then (db, Except.ok o)
    else finalizeSeatsCommit db now o

/-- Input of createCheckoutIntent. -/
structure CheckoutIntentInput where
  eventId : Nat
  seatIds : List String
  sessionId : Option String
  userId : Option Nat
deriving DecidableEq, Repr

/-- createCheckoutIntent (order.service.ts lines 127 to 188).  stripeCfg
records whether a payment provider is configured; without one (mock mode) the
order is created with paymentStatus SUCCEEDED and a synthetic mock payment
intent id, and finalizeOrder is invoked in the same call. -/
def createCheckoutIntent (db : DB) (now : Nat) (stripeCfg : Bool)
    (inp : CheckoutIntentInput) : DB × Except AppErr OrderDoc :=
  let a := assertSeatAvailability db now inp.eventId inp.seatIds inp.sessionId inp.userId
  match a.snd with
  | Except.error e => (a.fst, Except.error e)
  | Except.ok _ =>
    match calculatePricing a.fst inp.eventId inp.seatIds with
    | Except.error e => (a.fst, Except.error e)
    | Except.ok pricing =>
      let oid := a.fst.nextOrderId
      let order : OrderDoc :=
        { id := oid, eventId := inp.eventId, seatIds := inp.seatIds,
          userId := inp.userId,
          paymentStatus :=
            if stripeCfg then PaymentStatus.pending else PaymentStatus.succeeded,
          paymentIntentId :=
            (if stripeCfg then "pi_" else "mock_pi_") ++ toString oid,
          ticketIds := [],
          breakdown :=
            { subtotal := pricing.subtotal, fees := pricing.fees,
              tax := pricing.tax, total := pricing.total } }
      let db2 := { a.fst with orders := a.fst.orders ++ [order], nextOrderId := oid + 1 }
      if stripeCfg then (db2, Except.ok order)
      else
        let fz := finalizeOrder db2 now oid
        match fz.snd with
        | Except.error e => (fz.fst, Except.error e)
        | Except.ok _ => (fz.fst, Except.ok order)

/-- Order.updateOne semantics: rewrite the first matching document. -/
def updateFirstOrder (p : OrderDoc → Bool) (f : OrderDoc → OrderDoc) :
    List OrderDoc → List OrderDoc
  | [] => []
  | o :: rest => if p o then f o :: rest else o :: updateFirstOrder p f rest

/-- markOrderFailed (order.service.ts lines 303 to 305): an unconditional
updateOne setting paymentStatus FAILED on the order matching the payment
intent id, with no guard on the current status. -/
def markOrderFailed (db : DB) (piId : String) : DB :=
  { db with
    orders := updateFirstOrder (fun o => o.paymentIntentId == piId)
      (fun o => { o with paymentStatus := PaymentStatus.failed }) db.orders }

/-- One entry of a seat_availability_update payload. -/
structure SeatUpdate where
  seatId : String
  status : SeatStatus
deriving DecidableEq, Repr

/-- One seat_availability_update broadcast to the room event:{eventId}
(realtime.service.ts broadcastSeatUpdate). -/
structure Broadcast where
  eventId : Nat
  updates : List SeatUpdate
deriving DecidableEq, Repr

/-- POST /seats/hold controller (seat controller holdSeats): on service
success it broadcasts one seat_availability_update listing the requested
seatIds as HELD; when the service throws, asyncHandler propagates the error
and no broadcast happens. -/
def holdSeatsController (db : DB) (now : Nat) (inp : HoldSeatsInput) :
    DB × Except AppErr Hold × List Broadcast :=
  match holdSeats db now inp with
  | (db1, Except.ok h) =>
    (db1, Except.ok h,
      [{ eventId := inp.eventId,
         updates := inp.seatIds.map (fun s =>
           { seatId := s, status := SeatStatus.held }) }])
  | (db1, Except.error e) => (db1, Except.error e, [])

/-- DELETE /seats/release controller (seat controller releaseSeats): it calls
the service and responds; the controller body contains no broadcast call. -/
def releaseSeatsController (db : DB) (inp : ReleaseSeatsInput) :
    DB × Except AppErr Unit × List Broadcast :=
  let r := releaseSeats db inp
  (r.fst, r.snd, [])

/-- POST /orders/:id/finalize controller (order controller finalizeOrder): it
calls the service and responds; the controller body contains no broadcast
call. -/
def finalizeOrderController (db : DB) (now : Nat) (orderId : Nat) :
    DB × Except AppErr OrderDoc × List Broadcast :=
  let r := finalizeOrder db now orderId
  (r.fst, r.snd, [])

/-- First-occurrence deduplication of event ids (the insertion order of the
eventUpdates record in the cleanup job). -/
def dedupNats (l : List Nat) : List Nat :=
  l.foldl (fun acc e => if acc.contains e then acc else acc ++ [e]) []

/-- The seat-hold cleanup job tick (jobs/seatHoldExpiration.job.ts): run
cleanupExpiredHolds; when anything was cleaned, query the seats that are
AVAILABLE with lastUpdated within the last minute, group them by event and
broadcast one seat_availability_update per event. -/
def seatHoldCleanupJob (db : DB) (now : Nat) : DB × List Broadcast :=
  let c := cleanupExpiredHolds db now
  if c.snd == 0 then (c.fst, [])
  else
    let recent := c.fst.seats.filter (fun r =>
      r.status == SeatStatus.available && decide (now - 60000 ≤ r.lastUpdated))
    let eventIds := dedupNats (recent.map (fun r => r.eventId))
    (c.fst,
     eventIds.map (fun e =>
       { eventId := e,
         updates := (recent.filter (fun r => r.eventId == e)).map (fun r =>
           { seatId := r.seatId, status := SeatStatus.available }) }))

/-- One invocation of a mutating operation of the reservation subsystem, for
stating state-machine invariants over arbitrary operation sequences. -/
inductive SubOp
  | hold (now : Nat) (inp : HoldSeatsInput)
  | holdCommit (now : Nat) (inp : HoldSeatsInput)
  | release (inp : ReleaseSeatsInput)
  | cleanup (now : Nat)
  | finalize (now : Nat) (orderId : Nat)
  | checkout (now : Nat) (stripeCfg : Bool) (inp : CheckoutIntentInput)
  | markFailed (piId : String)
deriving Repr

/-- The database state an operation leaves behind (for throwing operations,
the state at the moment of the throw). -/
def applyOp (db : DB) : SubOp → DB
  | SubOp.hold now inp => (holdSeats db now inp).fst
  | SubOp.holdCommit now inp => (createHoldCommit db now inp).fst
  | SubOp.release inp => (releaseSeats db inp).fst
  | SubOp.cleanup now => (cleanupExpiredHolds db now).fst
  | SubOp.finalize now orderId => (finalizeOrder db now orderId).fst
  | SubOp.checkout now stripeCfg inp => (createCheckoutIntent db now stripeCfg inp).fst
  | SubOp.markFailed piId => markOrderFailed db piId

/-- Sequential composition of operations. -/
def applyOps (db : DB) (ops : List SubOp) : DB :=
  ops.foldl applyOp db

/-- Well-formedness of the database: the (eventId, seatId) keys of the seat
rows are pairwise distinct (the unique compound index of
EventSeatState.model.ts), hold ids are distinct and order ids are distinct. -/
def DB.WF (db : DB) : Prop :=
  (db.seats.map (fun r => (r.eventId, r.seatId))).Nodup ∧
  (db.holds.map (fun h => h.id)).Nodup ∧
  (db.orders.map (fun o => o.id)).Nodup

/-- The relation between a state and a later state saying every SOLD seat
row survives untouched and the seat keys are unchanged: SOLD is terminal. -/
def SoldPreserved (db db1 : DB) : Prop :=
  db1.seats.map (fun r => (r.eventId, r.seatId)) =
    db.seats.map (fun r => (r.eventId, r.seatId)) ∧
  ∀ r ∈ db.seats, r.status = SeatStatus.sold → r ∈ db1.seats

/-! Concrete fixtures used by the counterexample and witness theorems.  All
fixtures use event 1, published, with a single pricing zone A at price 10. -/

/-- A published event with one pricing zone. -/
def fixEvent : EventDoc :=
  { id := 1, status := EventStatus.published,
    pricingZones := [("A", { name := "Zone A", price := 10 })], soldCount := 0 }

/-- An AVAILABLE seat row of event 1. -/
def fixAvail (s : String) : SeatRow :=
  { eventId := 1, seatId := s, status := SeatStatus.available, holdId := none,
    orderId := none, lastUpdated := 0 }

/-- A HELD seat row of event 1 pointing at hold h. -/
def fixHeld (s : String) (h : Nat) : SeatRow :=
  { eventId := 1, seatId := s, status := SeatStatus.held, holdId := some h,
    orderId := none, lastUpdated := 0 }

/-- A SOLD seat row of event 1 pointing at order o. -/
def fixSold (s : String) (o : Nat) : SeatRow :=
  { eventId := 1, seatId := s, status := SeatStatus.sold, holdId := none,
    orderId := some o, lastUpdated := 0 }

/-- A live hold (expiresAt well in the future relative to now = 0). -/
def fixHold (hid : Nat) (ss : List String) (sess : String) : Hold :=
  { id := hid, eventId := 1, seatIds := ss, sessionId := sess, userId := none,
    expiresAt := 1000000 }

/-- A database with the given rows and holds and fresh counters. -/
def fixDB (seats : List SeatRow) (holds : List Hold) (orders : List OrderDoc) : DB :=
  { events := [fixEvent], seats := seats, holds := holds, orders := orders,
    tickets := [], cache := [], nextHoldId := 100, nextOrderId := 200,
    nextTicketId := 300 }

/-- C1 fixture: the state at commit time after interference took seat S2. -/
def c1db : DB := fixDB [fixAvail "S1", fixHeld "S2" 3] [fixHold 3 ["S2"] "other"] []

def c1inp : HoldSeatsInput :=
  { eventId := 1, seatIds := ["S1", "S2"], sessionId := "s", userId := none }

/-- C1 witness fixture: two AVAILABLE seats for a clean commit. -/
def c1wdb : DB := fixDB [fixAvail "S1", fixAvail "S2"] [] []

/-- The hold granted by the commit on c1wdb. -/
def c1whold : Hold :=
  { id := 100, eventId := 1, seatIds := ["S1", "S2"], sessionId := "s",
    userId := none, expiresAt := 600000 }

/-- The state after the commit on c1wdb. -/
def c1wdb1 : DB := (createHoldCommit c1wdb 0 c1inp).fst

/-- C3 fixture: seat A-R1-S1 held by session sess1 under live hold 7. -/
def c3db : DB := fixDB [fixHeld "A-R1-S1" 7] [fixHold 7 ["A-R1-S1"] "sess1"] []

def c3inp : CheckoutIntentInput :=
  { eventId := 1, seatIds := ["A-R1-S1"], sessionId := some "sess1", userId := none }

/-- C4 fixture: a PENDING order over S1 (held) and S2 (already sold to order 9). -/
def c4ord : OrderDoc :=
  { id := 20, eventId := 1, seatIds := ["S1", "S2"], userId := none,
    paymentStatus := PaymentStatus.pending, paymentIntentId := "x",
    ticketIds := [],
    breakdown := { subtotal := 0, fees := 0, tax := 0, total := 0 } }

def c4db : DB := fixDB [fixHeld "S1" 5, fixSold "S2" 9] [fixHold 5 ["S1"] "sess"] [c4ord]

/-- C5 fixture: a PENDING order over a single held seat, finalizable. -/
def c5ord : OrderDoc :=
  { id := 20, eventId := 1, seatIds := ["A-R1-S1"], userId := none,
    paymentStatus := PaymentStatus.pending, paymentIntentId := "x",
    ticketIds := [],
    breakdown := { subtotal := 0, fees := 0, tax := 0, total := 0 } }

def c5db : DB := fixDB [fixHeld "A-R1-S1" 5] [fixHold 5 ["A-R1-S1"] "sess"] [c5ord]

/-- The order c5ord after a successful finalize: SUCCEEDED with one ticket. -/
def c5ord1 : OrderDoc :=
  { c5ord with paymentStatus := PaymentStatus.succeeded, ticketIds := [300] }

/-- The database c5db after a successful finalize of order 20. -/
def c5db1 : DB :=
  { events := [{ fixEvent with soldCount := 1 }],
    seats := [{ eventId := 1, seatId := "A-R1-S1", status := SeatStatus.sold,
                holdId := some 5, orderId := some 20, lastUpdated := 0 }],
    holds := [fixHold 5 ["A-R1-S1"] "sess"],
    orders := [c5ord1],
    tickets := [{ id := 300, orderId := 20, eventId := 1, seatId := "A-R1-S1" }],
    cache := [], nextHoldId := 100, nextOrderId := 200, nextTicketId := 301 }

/-- C6 fixture: an order that already SUCCEEDED, with payment intent pi_1. -/
def c6ord : OrderDoc :=
  { id := 20, eventId := 1, seatIds := ["S1"], userId := none,
    paymentStatus := PaymentStatus.succeeded, paymentIntentId := "pi_1",
    ticketIds := [301],
    breakdown := { subtotal := 0, fees := 0, tax := 0, total := 0 } }

def c6db : DB := fixDB [fixSold "S1" 20] [] [c6ord]

/-- C7 fixture: session sess holds S1 under live hold 5; S2 is already SOLD. -/
def c7db : DB := fixDB [fixHeld "S1" 5, fixSold "S2" 9] [fixHold 5 ["S1"] "sess"] []

def c7inp : HoldSeatsInput :=
  { eventId := 1, seatIds := ["S2"], sessionId := "sess", userId := none }

/-- C7 witness fixture: same session hold, S2 AVAILABLE this time. -/
def c7wdb : DB := fixDB [fixHeld "S1" 5, fixAvail "S2"] [fixHold 5 ["S1"] "sess"] []

/-- The hold 5 extended over S1 and S2 (C7 witness). -/
def c7whold1 : Hold :=
  { id := 5, eventId := 1, seatIds := ["S1", "S2"], sessionId := "sess",
    userId := none, expiresAt := 600000 }

/-- The database c7wdb after the extension grant of S2. -/
def c7wdb1 : DB :=
  { events := [fixEvent],
    seats := [fixHeld "S1" 5,
              { eventId := 1, seatId := "S2", status := SeatStatus.held,
                holdId := some 5, orderId := none, lastUpdated := 0 }],
    holds := [c7whold1], orders := [], tickets := [],
    cache := [(5, { holdId := 5, eventId := 1, seatIds := ["S1", "S2"],
                    sessionId := "sess", expiresAt := 600000 })],
    nextHoldId := 100, nextOrderId := 200, nextTicketId := 300 }

/-- C8 fixture: one seat held under hold 5 by session sess. -/
def c8db : DB := fixDB [fixHeld "S1" 5] [fixHold 5 ["S1"] "sess"] []

def c8rel : ReleaseSeatsInput := { holdId := 5, sessionId := "sess" }

/-- C8 witness fixture: an available seat to grant. -/
def c8wdb : DB := fixDB [fixAvail "S1"] [] []

def c8winp : HoldSeatsInput :=
  { eventId := 1, seatIds := ["S1"], sessionId := "sess", userId := none }

/-- The hold granted on c8wdb. -/
def c8whold : Hold :=
  { id := 100, eventId := 1, seatIds := ["S1"], sessionId := "sess",
    userId := none, expiresAt := 600000 }

/-- The database c8wdb after the grant of c8whold. -/
def c8wdb1 : DB :=
  { events := [fixEvent],
    seats := [{ eventId := 1, seatId := "S1", status := SeatStatus.held,
                holdId := some 100, orderId := none, lastUpdated := 0 }],
    holds := [c8whold], orders := [], tickets := [],
    cache := [(100, { holdId := 100, eventId := 1, seatIds := ["S1"],
                      sessionId := "sess", expiresAt := 600000 })],
    nextHoldId := 101, nextOrderId := 200, nextTicketId := 300 }

/-- C9 fixture: published event whose only seat row is S1. -/
def c9db : DB := fixDB [fixAvail "S1"] [] []

/-- C2 witness fixture: one sold seat, one held seat and a live hold. -/
def c2db : DB := fixDB [fixSold "S1" 9, fixHeld "S2" 5] [fixHold 5 ["S2"] "sess"] []

/-- C2 witness operation sequence: a cleanup tick past the hold expiry, a
release, a finalize attempt and a webhook failure mark. -/
def c2ops : List SubOp :=
  [SubOp.cleanup 2000000, SubOp.release { holdId := 5, sessionId := "sess" },
   SubOp.finalize 0 99, SubOp.markFailed "p"]

/-- C10 fixture: a held seat whose hold row was TTL-deleted (no Hold exists). -/
def c10db : DB := fixDB [fixHeld "S1" 5] [] []

/-- Decidable equality of results, for evaluating the embedding at concrete
inputs. -/
instance {e a : Type} [DecidableEq e] [DecidableEq a] : DecidableEq (Except e a) :=
  fun x y =>
  match x, y with
  | Except.ok v, Except.ok w =>
    if h : v = w then Decidable.isTrue (by rw [h])
    else Decidable.isFalse (fun he => h (Except.ok.inj he))
  | Except.error v, Except.error w =>
    if h : v = w then Decidable.isTrue (by rw [h])
    else Decidable.isFalse (fun he => h (Except.error.inj he))
  | Except.ok _, Except.error _ => Decidable.isFalse (fun he => Except.noConfusion he)
  | Except.error _, Except.ok _ => Decidable.isFalse (fun he => Except.noConfusion he)

/-! ## Theorems -/

/-- C9 counterexample: with event 1 published and S1 its only seat row,
requesting the nonexistent seat S2 makes holdSeats fail with the 400
seats-missing error and HTTP status 400, not the NOT_FOUND 404 the claim
states; the event-level lookup is the only 404 in the precondition checks. -/
theorem c9_errors_counterexample :
    holdSeats c9db 0 { eventId := 1, seatIds := ["S2"], sessionId := "s", userId := none } =
      (c9db, Except.error AppErr.seatsMissing) ∧
    statusCode AppErr.seatsMissing = 400 ∧
    statusCode AppErr.seatsMissing ≠ 404 := by
  refine ⟨by decide, rfl, by decide⟩

/-- C9 (amended): holdSeats maps each precondition violation to the
following error and HTTP status, leaving the database unchanged: more than
MAX_SEATS_PER_HOLD seats requested gives 400; a missing event gives 404; an
event that is not PUBLISHED gives 400; and a requested seatId with no
SeatState row of the event gives the 400 seats-missing error (the source
raises it with status 400, not 404). -/
theorem c9_errors_amended (db : DB) (now : Nat) (inp : HoldSeatsInput) :
    (maxSeatsPerHold < inp.seatIds.length →
      holdSeats db now inp = (db, Except.error AppErr.tooManySeats) ∧
      statusCode AppErr.tooManySeats = 400) ∧
    (inp.seatIds.length ≠ 0 → inp.seatIds.length ≤ maxSeatsPerHold →
      findEvent db inp.eventId = none →
      holdSeats db now inp = (db, Except.error AppErr.eventNotFound) ∧
      statusCode AppErr.eventNotFound = 404) ∧
    (∀ ev, inp.seatIds.length ≠ 0 → inp.seatIds.length ≤ maxSeatsPerHold →
      findEvent db inp.eventId = some ev → ev.status ≠ EventStatus.published →
      holdSeats db now inp = (db, Except.error AppErr.eventNotPublished) ∧
      statusCode AppErr.eventNotPublished = 400) ∧
    (∀ ev, inp.seatIds.length ≠ 0 → inp.seatIds.length ≤ maxSeatsPerHold →
      findEvent db inp.eventId = some ev → ev.status = EventStatus.published →
      (db.seats.filter (fun r => r.eventId == inp.eventId &&
          inp.seatIds.contains r.seatId)).length ≠ inp.seatIds.length →
      holdSeats db now inp = (db, Except.error AppErr.seatsMissing) ∧
      statusCode AppErr.seatsMissing = 400) := by
  refine ⟨?_, ?_, ?_, ?_⟩
  · intro h
    have h0 : (inp.seatIds.length == 0) = false := by
      simp only [beq_eq_false_iff_ne, ne_eq]
      omega
    rw [holdSeats, h0]
    simp only [Bool.false_eq_true, if_false, if_pos h]
    exact ⟨trivial, rfl⟩
  · intro h1 h2 h3
    have h0 : (inp.seatIds.length == 0) = false := by
      simp only [beq_eq_false_iff_ne, ne_eq]
      omega
    rw [holdSeats, h0]
    simp only [Bool.false_eq_true, if_false,
      if_neg (by omega : ¬ maxSeatsPerHold < inp.seatIds.length), h3]
    exact ⟨trivial, rfl⟩
  · intro ev h1 h2 h3 h4
    have h0 : (inp.seatIds.length == 0) = false := by
      simp only [beq_eq_false_iff_ne, ne_eq]
      omega
    have hpub : (ev.status != EventStatus.published) = true := by
      simp only [bne_iff_ne, ne_eq]
      exact h4
    rw [holdSeats, h0]
    simp only [Bool.false_eq_true, if_false,
      if_neg (by omega : ¬ maxSeatsPerHold < inp.seatIds.length), h3]
    rw [hpub]
    exact ⟨rfl, rfl⟩
  · intro ev h1 h2 h3 h4 h5
    have h0 : (inp.seatIds.length == 0) = false := by
      simp only [beq_eq_false_iff_ne, ne_eq]
      omega
    have hpub : (ev.status != EventStatus.published) = false := by
      simp [h4]
    have hlen : ((db.seats.filter (fun r => r.eventId == inp.eventId &&
        inp.seatIds.contains r.seatId)).length != inp.seatIds.length) = true := by
      simp only [bne_iff_ne, ne_eq]
      exact h5
    rw [holdSeats, h0]
    simp only [Bool.false_eq_true, if_false,
      if_neg (by omega : ¬ maxSeatsPerHold < inp.seatIds.length), h3]
    rw [hpub]
    simp only [Bool.false_eq_true, if_false, hlen, if_true]
    exact ⟨trivial, rfl⟩

/-- C9 witness: the amended theorem applied to the concrete fixture where the
event exists, is published, and seat S2 has no row. -/
theorem c9_errors_amended_witness :
    holdSeats c9db 0 { eventId := 1, seatIds := ["S2"], sessionId := "s", userId := none } =
      (c9db, Except.error AppErr.seatsMissing) ∧
    statusCode AppErr.seatsMissing = 400 :=
  (c9_errors_amended c9db 0
      { eventId := 1, seatIds := ["S2"], sessionId := "s", userId := none }).2.2.2
    fixEvent (by decide) (by decide) (by decide) (by decide) (by decide)

/-- C10 (confirmed): releaseSeats with a holdId that matches no Hold row
(for instance after the TTL index of SeatHold deleted it while seats still
carry that holdRef) fails with the 404 hold-not-found error and mutates
nothing: the returned state is the input state, so no seat is reverted and
no cache entry is removed; with a Hold whose sessionId differs from the
caller it fails 403 unchanged; and a successful release implies the Hold row
existed with the caller session. -/
theorem c10_release_guard (db : DB) (inp : ReleaseSeatsInput) :
    (findHold db inp.holdId = none →
      releaseSeats db inp = (db, Except.error AppErr.holdNotFound) ∧
      statusCode AppErr.holdNotFound = 404) ∧
    (∀ h, findHold db inp.holdId = some h → h.sessionId ≠ inp.sessionId →
      releaseSeats db inp = (db, Except.error AppErr.notHoldOwner) ∧
      statusCode AppErr.notHoldOwner = 403) ∧
    (∀ db1 u, releaseSeats db inp = (db1, Except.ok u) →
      ∃ h, findHold db inp.holdId = some h ∧ h.sessionId = inp.sessionId) := by
  refine ⟨?_, ?_, ?_⟩
  · intro hnone
    rw [releaseSeats, hnone]
    exact ⟨rfl, rfl⟩
  · intro h hsome hne
    have hb : (h.sessionId != inp.sessionId) = true := by
      simp only [bne_iff_ne, ne_eq]
      exact hne
    simp only [releaseSeats, hsome, hb, if_true]
    exact ⟨trivial, rfl⟩
  · intro db1 u hok
    simp only [releaseSeats] at hok
    cases hfind : findHold db inp.holdId with
    | none =>
      rw [hfind] at hok
      exact absurd (congrArg Prod.snd hok) (by simp)
    | some h =>
      rw [hfind] at hok
      by_cases hs : h.sessionId = inp.sessionId
      · exact ⟨h, rfl, hs⟩
      · have hb : (h.sessionId != inp.sessionId) = true := by
          simp only [bne_iff_ne, ne_eq]
          exact hs
        simp only [hb, if_true] at hok
        exact absurd (congrArg Prod.snd hok) (by simp)

/-- C10 witness: releasing hold 5 on the fixture where the Hold row is gone
but seat S1 is still HELD under it returns 404 and leaves the state intact. -/
theorem c10_release_guard_witness :
    releaseSeats c10db { holdId := 5, sessionId := "sess" } =
      (c10db, Except.error AppErr.holdNotFound) ∧
    statusCode AppErr.holdNotFound = 404 :=
  (c10_release_guard c10db { holdId := 5, sessionId := "sess" }).1 (by decide)

/-- C3: evaluation of the embedded mock-mode createCheckoutIntent at the
failing input (published event 1, seat A-R1-S1 HELD by session sess1 under a
live hold, no payment provider).  The returned order reports SUCCEEDED, yet
because the order was created with paymentStatus SUCCEEDED the subsequent
finalizeOrder call returns through its idempotency guard: the seat stays
HELD, the order carries no ticketRefs, no Ticket document exists, and the
event soldCount stays 0 — contradicting the claimed synchronous finalize
(and the source comment saying finalize immediately issues tickets and marks
seats sold). -/
theorem c3_mock_checkout_no_finalize :
    (createCheckoutIntent c3db 0 false c3inp).snd.toOption.map
        (fun o => o.paymentStatus) = some PaymentStatus.succeeded ∧
    (createCheckoutIntent c3db 0 false c3inp).snd.toOption.map
        (fun o => o.ticketIds) = some [] ∧
    (findOrder (createCheckoutIntent c3db 0 false c3inp).fst 200).map
        (fun o => o.paymentStatus) = some PaymentStatus.succeeded ∧
    (findOrder (createCheckoutIntent c3db 0 false c3inp).fst 200).map
        (fun o => o.ticketIds) = some [] ∧
    (createCheckoutIntent c3db 0 false c3inp).fst.seats = [fixHeld "A-R1-S1" 7] ∧
    (createCheckoutIntent c3db 0 false c3inp).fst.tickets = [] ∧
    (createCheckoutIntent c3db 0 false c3inp).fst.events = [fixEvent] ∧
    fixEvent.soldCount = 0 := by
  refine ⟨by decide, by decide, by decide, by decide, by decide, by decide, by decide, rfl⟩

/-- Auxiliary: Order.updateOne rewrites the first matching document, and when
the rewrite preserves the match predicate the lookup afterwards returns the
rewritten document. -/
theorem updateFirstOrder_find (p : OrderDoc → Bool) (f : OrderDoc → OrderDoc)
    (hp : ∀ o, p (f o) = p o) :
    ∀ l (o : OrderDoc), l.find? p = some o →
      (updateFirstOrder p f l).find? p = some (f o) := by
  intro l
  induction l with
  | nil => intro o h; exact absurd h (by simp)
  | cons x rest ih =>
    intro o h
    by_cases hx : p x = true
    · rw [List.find?_cons_of_pos _ hx] at h
      cases h
      rw [updateFirstOrder, if_pos hx]
      exact List.find?_cons_of_pos _ (by rw [hp]; exact hx)
    · have hx' : p x = false := by
        cases hpx : p x
        · rfl
        · exact absurd hpx hx
      rw [List.find?_cons_of_neg _ (by rw [hx']; simp)] at h
      rw [updateFirstOrder, if_neg (by rw [hx']; simp)]
      rw [List.find?_cons_of_neg _ (by rw [hx']; simp)]
      exact ih o h

/-- C6 counterexample: with order 20 SUCCEEDED under payment intent pi_1,
running the payment-failure webhook path (markOrderFailed pi_1) rewrites its
paymentStatus to FAILED — the SUCCEEDED to FAILED transition the claimed DAG
forbids. -/
theorem c6_markFailed_counterexample :
    (findOrder c6db 20).map (fun o => o.paymentStatus) = some PaymentStatus.succeeded ∧
    (findOrder (markOrderFailed c6db "pi_1") 20).map (fun o => o.paymentStatus) =
      some PaymentStatus.failed := by
  exact ⟨by decide, by decide⟩

/-- C6 (amended): markOrderFailed performs an unconditional updateOne: the
order matching the payment intent id ends with paymentStatus FAILED whatever
its previous status, including SUCCEEDED, so the code enforces no DAG guard
on the payment-failure webhook path. -/
theorem c6_markFailed_amended (db : DB) (piId : String) (o : OrderDoc)
    (hfind : db.orders.find? (fun x => x.paymentIntentId == piId) = some o) :
    (markOrderFailed db piId).orders.find? (fun x => x.paymentIntentId == piId) =
      some { o with paymentStatus := PaymentStatus.failed } :=
  updateFirstOrder_find (fun x => x.paymentIntentId == piId)
    (fun x => { x with paymentStatus := PaymentStatus.failed })
    (fun _ => rfl) db.orders o hfind

/-- C6 witness: the amended theorem applied to the SUCCEEDED order fixture. -/
theorem c6_markFailed_amended_witness :
    (markOrderFailed c6db "pi_1").orders.find? (fun x => x.paymentIntentId == "pi_1") =
      some { c6ord with paymentStatus := PaymentStatus.failed } :=
  c6_markFailed_amended c6db "pi_1" c6ord (by decide)

/-- C8 counterexample: releasing hold 5 commits the HELD to AVAILABLE
transition of seat S1 yet the release controller emits no broadcast, so there
is no seat_availability_update per committed transition on release. -/
theorem c8_broadcast_counterexample :
    (releaseSeatsController c8db c8rel).2.1 = Except.ok () ∧
    (releaseSeatsController c8db c8rel).1.seats = [fixAvail "S1"] ∧
    (releaseSeatsController c8db c8rel).2.2 = [] := by
  refine ⟨rfl, by decide, rfl⟩

/-- C8 (amended): seat_availability_update broadcasts are produced only on
hold grant (one message from the HTTP controller listing the requested seats
as HELD) and by the expiration job (messages listing reclaimed seats as
AVAILABLE); the release and finalize paths emit none. -/
theorem c8_broadcast_amended (db : DB) (now : Nat) (inp : HoldSeatsInput)
    (rinp : ReleaseSeatsInput) (orderId : Nat) :
    ((releaseSeatsController db rinp).2.2 = []) ∧
    ((finalizeOrderController db now orderId).2.2 = []) ∧
    (∀ db1 h, holdSeats db now inp = (db1, Except.ok h) →
      (holdSeatsController db now inp).2.2 =
        [{ eventId := inp.eventId,
           updates := inp.seatIds.map (fun s =>
             { seatId := s, status := SeatStatus.held }) }]) ∧
    (∀ b, b ∈ (seatHoldCleanupJob db now).snd → ∀ u, u ∈ b.updates →
      u.status = SeatStatus.available) := by
  refine ⟨rfl, rfl, ?_, ?_⟩
  · intro db1 h hok
    simp only [holdSeatsController, hok]
  · intro b hb u hu
    simp only [seatHoldCleanupJob] at hb
    split at hb
    · exact absurd hb (by simp)
    · obtain ⟨e, _, rfl⟩ := List.mem_map.mp hb
      obtain ⟨r, _, rfl⟩ := List.mem_map.mp hu
      rfl

/-- Auxiliary: one ticket is created per seat id. -/
theorem mkTickets_length (orderId eventId : Nat) (l : List String) :
    ∀ base, (mkTickets orderId eventId base l).length = l.length := by
  induction l with
  | nil => intro base; rfl
  | cons s rest ih => intro base; simp [mkTickets, ih]

/-- Auxiliary: after a save (map replacing the documents with the saved id),
looking the id up returns the saved document, provided some document with the
id existed. -/
theorem find?_replace (l : List OrderDoc) (oid : Nat) (o1 : OrderDoc)
    (hid : o1.id = oid) (hsome : (l.find? (fun x => x.id == oid)).isSome) :
    (l.map (fun x => if x.id == o1.id then o1 else x)).find? (fun x => x.id == oid) =
      some o1 := by
  induction l with
  | nil => simp at hsome
  | cons x rest ih =>
    by_cases hx : x.id = oid
    · have hb : (x.id == o1.id) = true := by simp [hx, hid]
      simp only [List.map_cons, hb, if_true]
      exact List.find?_cons_of_pos _ (by simp [hid])
    · have hb : (x.id == o1.id) = false := by
        simp only [beq_eq_false_iff_ne, ne_eq, hid]
        exact hx
      have hb2 : (x.id == oid) = false := by
        simp only [beq_eq_false_iff_ne, ne_eq]
        exact hx
      simp only [List.map_cons, hb, Bool.false_eq_true, if_false]
      rw [List.find?_cons_of_neg _ (by simp [hb2])] at hsome ⊢
      exact ih hsome

/-- Auxiliary: everything a successful finalizeSeatsCommit guarantees: the
returned order is the stored order marked SUCCEEDED, one ticket exists per
seat, the orders list is the input list with that order saved, the seats are
the conditional SOLD flip, and the flip matched exactly the seat count. -/
theorem finalizeSeatsCommit_ok (d : DB) (now : Nat) (o0 : OrderDoc) (db1 : DB)
    (o : OrderDoc) (hfin : finalizeSeatsCommit d now o0 = (db1, Except.ok o)) :
    o.id = o0.id ∧ o.paymentStatus = PaymentStatus.succeeded ∧
    o.seatIds = o0.seatIds ∧
    o.ticketIds.length = o0.seatIds.length ∧
    db1.tickets.length = d.tickets.length + o0.seatIds.length ∧
    db1.orders = d.orders.map (fun x => if x.id == o.id then o else x) ∧
    db1.seats = (updateSeats d (notSoldIn o0.eventId o0.seatIds) (toSold o0.id now)).fst.seats ∧
    (d.seats.filter (notSoldIn o0.eventId o0.seatIds)).length = o0.seatIds.length := by
  simp only [finalizeSeatsCommit] at hfin
  split at hfin
  · exact absurd (congrArg Prod.snd hfin) (by simp)
  · rename_i hcnt
    have hcnt' : (d.seats.filter (notSoldIn o0.eventId o0.seatIds)).length =
        o0.seatIds.length := by
      have := hcnt
      simp only [bne_iff_ne, ne_eq, Decidable.not_not] at this
      exact this
    simp only [finalizeSuccess] at hfin
    split at hfin
    · exact absurd (congrArg Prod.snd hfin) (by simp)
    · rw [Prod.mk.injEq] at hfin
      obtain ⟨hdb, ho⟩ := hfin
      have ho' := Except.ok.inj ho
      subst ho'
      subst hdb
      refine ⟨rfl, rfl, rfl, ?_, ?_, rfl, rfl, hcnt'⟩
      · simp [mkTickets_length]
      · simp [saveOrder, saveEvent, updateSeats, mkTickets_length]

/-- C5 (confirmed): finalizeOrder is idempotent.  On an order already
SUCCEEDED it returns the order with the state unchanged; on a successful
finalize from a non-SUCCEEDED order it issues exactly one ticket per seat;
and a second finalizeOrder call on any successfully finalized order returns
the same order and leaves the state exactly as after the first call. -/
theorem c5_finalize_idempotent (db : DB) (now now2 orderId : Nat) :
    (∀ o, findOrder db orderId = some o → o.paymentStatus = PaymentStatus.succeeded →
      finalizeOrder db now orderId = (db, Except.ok o)) ∧
    (∀ db1 o o0, findOrder db orderId = some o0 →
      o0.paymentStatus ≠ PaymentStatus.succeeded →
      finalizeOrder db now orderId = (db1, Except.ok o) →
      o.paymentStatus = PaymentStatus.succeeded ∧
      o.ticketIds.length = o0.seatIds.length ∧
      db1.tickets.length = db.tickets.length + o0.seatIds.length) ∧
    (∀ db1 o, finalizeOrder db now orderId = (db1, Except.ok o) →
      finalizeOrder db1 now2 orderId = (db1, Except.ok o)) := by
  have hpart1 : ∀ (d : DB) (nw : Nat) o, findOrder d orderId = some o →
      o.paymentStatus = PaymentStatus.succeeded →
      finalizeOrder d nw orderId = (d, Except.ok o) := by
    intro d nw o ho hs
    rw [finalizeOrder, ho]
    simp [hs]
  refine ⟨hpart1 db now, ?_, ?_⟩
  · intro db1 o o0 ho hns hfin
    have hb : (o0.paymentStatus == PaymentStatus.succeeded) = false := by
      simp only [beq_eq_false_iff_ne, ne_eq]
      exact hns
    simp only [finalizeOrder, ho, hb, Bool.false_eq_true, if_false] at hfin
    obtain ⟨_, hps, _, htk, hdbtk, _, _, _⟩ := finalizeSeatsCommit_ok db now o0 db1 o hfin
    exact ⟨hps, htk, hdbtk⟩
  · intro db1 o hfin
    cases ho : findOrder db orderId with
    | none =>
      rw [finalizeOrder, ho] at hfin
      exact absurd (congrArg Prod.snd hfin) (by simp)
    | some o0 =>
      by_cases hs : o0.paymentStatus = PaymentStatus.succeeded
      · have heq := (hpart1 db now o0 ho hs).symm.trans hfin
        rw [Prod.mk.injEq] at heq
        obtain ⟨h1, h2⟩ := heq
        have h2' := Except.ok.inj h2
        subst h1
        subst h2'
        exact hpart1 db now2 o0 ho hs
      · have hb : (o0.paymentStatus == PaymentStatus.succeeded) = false := by
          simp only [beq_eq_false_iff_ne, ne_eq]
          exact hs
        simp only [finalizeOrder, ho, hb, Bool.false_eq_true, if_false] at hfin
        obtain ⟨hid, hps, _, _, _, hords, _, _⟩ :=
          finalizeSeatsCommit_ok db now o0 db1 o hfin
        have hfind1 : findOrder db1 orderId = some o := by
          have hid' : o.id = orderId := by
            rw [hid]
            have := List.find?_some ho
            simpa using this
          rw [findOrder, hords]
          exact find?_replace db.orders orderId o hid' (by rw [findOrder] at ho; simp [ho])
        exact hpart1 db1 now2 o hfind1 hps

/-- C5 witness: finalizing the concrete PENDING one-seat order produced
state c5db1 with one ticket; the theorem then gives that a second finalize
returns the same order and the same state. -/
theorem c5_finalize_idempotent_witness :
    finalizeOrder c5db1 1 20 = (c5db1, Except.ok c5ord1) :=
  (c5_finalize_idempotent c5db 0 1 20).2.2 c5db1 c5ord1 (by decide)

/-- C8 witness: granting S1 on the concrete fixture emits exactly the one
HELD broadcast of the amended theorem. -/
theorem c8_broadcast_amended_witness :
    (holdSeatsController c8wdb 0 c8winp).2.2 =
      [{ eventId := 1, updates := [{ seatId := "S1", status := SeatStatus.held }] }] :=
  (c8_broadcast_amended c8wdb 0 c8winp { holdId := 0, sessionId := "x" } 0).2.2.1
    c8wdb1 c8whold (by decide)



/-- Auxiliary: SoldPreserved is reflexive. -/
theorem soldPreserved_refl (db : DB) : SoldPreserved db db :=
  ⟨rfl, fun _ hr _ => hr⟩

/-- Auxiliary: SoldPreserved composes. -/
theorem soldPreserved_trans {a b c : DB} (h1 : SoldPreserved a b)
    (h2 : SoldPreserved b c) : SoldPreserved a c :=
  ⟨h2.1.trans h1.1, fun r hr hs => h2.2 r (h1.2 r hr hs) hs⟩

theorem soldPreserved_seats_eq {a b : DB} (h : b.seats = a.seats) :
    SoldPreserved a b :=
  ⟨by rw [h], fun r hr _ => h ▸ hr⟩

theorem soldPreserved_of_map (a b : DB) (p : SeatRow → Bool) (f : SeatRow → SeatRow)
    (hseats : b.seats = a.seats.map (fun r => if p r then f r else r))
    (hp : ∀ r, r.status = SeatStatus.sold → p r = false)
    (hf : ∀ r, (f r).eventId = r.eventId ∧ (f r).seatId = r.seatId) :
    SoldPreserved a b := by
  constructor
  · rw [hseats, List.map_map]
    refine List.map_congr_left ?_
    intro r _
    by_cases h : p r = true
    · simp only [Function.comp_apply, h, if_true, (hf r).1, (hf r).2]
    · rw [Bool.not_eq_true] at h
      simp only [Function.comp_apply, h, Bool.false_eq_true, if_false]
  · intro r hr hs
    rw [hseats]
    have : (if p r then f r else r) = r := by
      rw [hp r hs]
      simp
    rw [← this]
    exact List.mem_map_of_mem _ hr

theorem toAvailable_key (r : SeatRow) :
    (toAvailable r).eventId = r.eventId ∧ (toAvailable r).seatId = r.seatId :=
  ⟨rfl, rfl⟩

theorem toHeld_key (hid now : Nat) (r : SeatRow) :
    (toHeld hid now r).eventId = r.eventId ∧ (toHeld hid now r).seatId = r.seatId :=
  ⟨rfl, rfl⟩

theorem toSold_key (oid now : Nat) (r : SeatRow) :
    (toSold oid now r).eventId = r.eventId ∧ (toSold oid now r).seatId = r.seatId :=
  ⟨rfl, rfl⟩

theorem availIn_not_sold (e : Nat) (ids : List String) (r : SeatRow)
    (hs : r.status = SeatStatus.sold) : availIn e ids r = false := by
  simp [availIn, hs]

theorem heldIn_not_sold (e : Nat) (ids : List String) (r : SeatRow)
    (hs : r.status = SeatStatus.sold) : heldIn e ids r = false := by
  simp [heldIn, hs]

theorem heldUnder_not_sold (hid : Nat) (r : SeatRow)
    (hs : r.status = SeatStatus.sold) : heldUnder hid r = false := by
  simp [heldUnder, hs]

theorem heldAtKey_not_sold (e : Nat) (sid : String) (r : SeatRow)
    (hs : r.status = SeatStatus.sold) : heldAtKey e sid r = false := by
  simp [heldAtKey, hs]

theorem notSoldIn_not_sold (e : Nat) (ids : List String) (r : SeatRow)
    (hs : r.status = SeatStatus.sold) : notSoldIn e ids r = false := by
  simp [notSoldIn, hs]

theorem soldPreserved_staleReclaim (db : DB) (now e : Nat) (hs : List SeatRow) :
    SoldPreserved db (staleReclaim db now e hs) := by
  simp only [staleReclaim]
  split
  · exact soldPreserved_refl db
  · exact soldPreserved_of_map db _ _ _ rfl (heldIn_not_sold _ _) toAvailable_key

theorem soldPreserved_createHoldCommit (db : DB) (now : Nat) (inp : HoldSeatsInput) :
    SoldPreserved db (createHoldCommit db now inp).fst := by
  simp only [createHoldCommit]
  split
  · exact soldPreserved_of_map db _ _ _ rfl (availIn_not_sold _ _) (toHeld_key _ _)
  · exact soldPreserved_of_map db _ _ _ rfl (availIn_not_sold _ _) (toHeld_key _ _)

theorem soldPreserved_finishExtend (db : DB) (now : Nat) (inp : HoldSeatsInput)
    (h0 : Hold) : SoldPreserved db (finishExtend db now inp h0).fst :=
  soldPreserved_seats_eq rfl

theorem soldPreserved_extendHold (db : DB) (now : Nat) (inp : HoldSeatsInput)
    (seats : List SeatRow) (h0 : Hold) :
    SoldPreserved db (extendHold db now inp seats h0).fst := by
  simp only [extendHold]
  split
  · exact soldPreserved_finishExtend _ _ _ _
  · split
    · exact soldPreserved_of_map db _ _ _ rfl (availIn_not_sold _ _) (toHeld_key _ _)
    · exact soldPreserved_trans
        (soldPreserved_of_map db _ _ _ rfl (availIn_not_sold _ _) (toHeld_key _ _))
        (soldPreserved_finishExtend _ _ _ _)

theorem soldPreserved_holdSeats (db : DB) (now : Nat) (inp : HoldSeatsInput) :
    SoldPreserved db (holdSeats db now inp).fst := by
  simp only [holdSeats]
  split
  · exact soldPreserved_refl db
  split
  · exact soldPreserved_refl db
  split
  · exact soldPreserved_refl db
  split
  · exact soldPreserved_refl db
  split
  · exact soldPreserved_refl db
  split
  · exact soldPreserved_staleReclaim _ _ _ _
  split
  · exact soldPreserved_trans (soldPreserved_staleReclaim _ _ _ _)
      (soldPreserved_extendHold _ _ _ _ _)
  split
  · exact soldPreserved_staleReclaim _ _ _ _
  · exact soldPreserved_trans (soldPreserved_staleReclaim _ _ _ _)
      (soldPreserved_createHoldCommit _ _ _)



theorem soldPreserved_releaseSeats (db : DB) (inp : ReleaseSeatsInput) :
    SoldPreserved db (releaseSeats db inp).fst := by
  simp only [releaseSeats]
  split
  · exact soldPreserved_refl db
  split
  · exact soldPreserved_refl db
  · exact soldPreserved_of_map db _ _ _ rfl (heldUnder_not_sold _) toAvailable_key

theorem soldPreserved_reclaimHold (db : DB) (h : Hold) :
    SoldPreserved db (reclaimHold db h) :=
  soldPreserved_of_map db _ _ _ rfl (heldUnder_not_sold _) toAvailable_key

theorem soldPreserved_foldReclaim (l : List Hold) :
    ∀ db, SoldPreserved db (l.foldl reclaimHold db) := by
  induction l with
  | nil => intro db; exact soldPreserved_refl db
  | cons h rest ih =>
    intro db
    exact soldPreserved_trans (soldPreserved_reclaimHold db h) (ih _)

theorem soldPreserved_cleanupExpiredHolds (db : DB) (now : Nat) :
    SoldPreserved db (cleanupExpiredHolds db now).fst :=
  soldPreserved_foldReclaim _ db

theorem soldPreserved_finalizeSuccess (db : DB) (o : OrderDoc) :
    SoldPreserved db (finalizeSuccess db o).fst := by
  simp only [finalizeSuccess]
  split
  · exact soldPreserved_refl db
  · exact soldPreserved_seats_eq rfl

theorem soldPreserved_finalizeSeatsCommit (db : DB) (now : Nat) (o : OrderDoc) :
    SoldPreserved db (finalizeSeatsCommit db now o).fst := by
  simp only [finalizeSeatsCommit]
  split
  · exact soldPreserved_of_map db _ _ _ rfl (notSoldIn_not_sold _ _) (toSold_key _ _)
  · exact soldPreserved_trans
      (soldPreserved_of_map db _ _ _ rfl (notSoldIn_not_sold _ _) (toSold_key _ _))
      (soldPreserved_finalizeSuccess _ _)

theorem soldPreserved_finalizeOrder (db : DB) (now orderId : Nat) :
    SoldPreserved db (finalizeOrder db now orderId).fst := by
  simp only [finalizeOrder]
  split
  · exact soldPreserved_refl db
  split
  · exact soldPreserved_refl db
  · exact soldPreserved_finalizeSeatsCommit _ _ _

theorem soldPreserved_assertLoop (now : Nat) (sessionId : Option String)
    (userId : Option Nat) :
    ∀ (l : List SeatRow) (db : DB),
      SoldPreserved db (assertLoop db now sessionId userId l).fst := by
  intro l
  induction l with
  | nil => intro db; exact soldPreserved_refl db
  | cons r rest ih =>
    intro db
    simp only [assertLoop]
    split
    · exact ih db
    split
    · exact soldPreserved_refl db
    split
    · exact ih db
    split
    · exact soldPreserved_trans
        (soldPreserved_of_map db _ _ _ rfl (heldAtKey_not_sold _ _) toAvailable_key)
        (ih _)
    split
    · exact soldPreserved_trans
        (soldPreserved_of_map db _ _ _ rfl (heldAtKey_not_sold _ _) toAvailable_key)
        (ih _)
    split
    · exact soldPreserved_refl db
    · exact ih db

theorem soldPreserved_assertSeatAvailability (db : DB) (now eventId : Nat)
    (seatIds : List String) (sessionId : Option String) (userId : Option Nat) :
    SoldPreserved db
      (assertSeatAvailability db now eventId seatIds sessionId userId).fst := by
  simp only [assertSeatAvailability]
  split
  · exact soldPreserved_refl db
  · exact soldPreserved_assertLoop _ _ _ _ db

theorem soldPreserved_createCheckoutIntent (db : DB) (now : Nat)
    (stripeCfg : Bool) (inp : CheckoutIntentInput) :
    SoldPreserved db (createCheckoutIntent db now stripeCfg inp).fst := by
  simp only [createCheckoutIntent]
  have ha := soldPreserved_assertSeatAvailability db now inp.eventId inp.seatIds
    inp.sessionId inp.userId
  split
  · exact ha
  split
  · exact ha
  split
  · exact soldPreserved_trans ha (soldPreserved_seats_eq rfl)
  split
  · exact soldPreserved_trans ha
      (soldPreserved_trans (soldPreserved_seats_eq rfl)
        (soldPreserved_finalizeOrder _ _ _))
  · exact soldPreserved_trans ha
      (soldPreserved_trans (soldPreserved_seats_eq rfl)
        (soldPreserved_finalizeOrder _ _ _))

theorem soldPreserved_markOrderFailed (db : DB) (piId : String) :
    SoldPreserved db (markOrderFailed db piId) :=
  soldPreserved_seats_eq rfl

theorem soldPreserved_applyOp (db : DB) (op : SubOp) :
    SoldPreserved db (applyOp db op) := by
  cases op with
  | hold now inp => exact soldPreserved_holdSeats db now inp
  | holdCommit now inp => exact soldPreserved_createHoldCommit db now inp
  | release inp => exact soldPreserved_releaseSeats db inp
  | cleanup now => exact soldPreserved_cleanupExpiredHolds db now
  | finalize now orderId => exact soldPreserved_finalizeOrder db now orderId
  | checkout now stripeCfg inp => exact soldPreserved_createCheckoutIntent db now stripeCfg inp
  | markFailed piId => exact soldPreserved_markOrderFailed db piId

theorem soldPreserved_applyOps (ops : List SubOp) :
    ∀ db, SoldPreserved db (applyOps db ops) := by
  induction ops with
  | nil => intro db; exact soldPreserved_refl db
  | cons op rest ih =>
    intro db
    exact soldPreserved_trans (soldPreserved_applyOp db op) (ih _)

/-- C2 (confirmed): SOLD is terminal.  Every conditional update issued by the
embedded operations (holdSeats grant, extension and stale reclamation,
releaseSeats, cleanupExpiredHolds, finalizeOrder, createCheckoutIntent,
markOrderFailed) filters on a status other than SOLD, so along any sequence
of these operations a SOLD row survives unchanged; and since the operations
never create or delete seat rows, the row with its key stays the unique one,
so a seat owned by a completed order is never simultaneously AVAILABLE. -/
theorem c2_sold_terminal (db : DB) (ops : List SubOp) (r : SeatRow)
    (hkeys : (db.seats.map (fun x => (x.eventId, x.seatId))).Nodup)
    (hr : r ∈ db.seats) (hsold : r.status = SeatStatus.sold) :
    r ∈ (applyOps db ops).seats ∧
    ∀ r2 ∈ (applyOps db ops).seats, r2.eventId = r.eventId → r2.seatId = r.seatId →
      r2 = r := by
  obtain ⟨hk, hmem⟩ := soldPreserved_applyOps ops db
  refine ⟨hmem r hr hsold, ?_⟩
  intro r2 h2 he hs
  have hkeys2 : ((applyOps db ops).seats.map (fun x => (x.eventId, x.seatId))).Nodup := by
    rw [hk]
    exact hkeys
  exact List.inj_on_of_nodup_map hkeys2 h2 (hmem r hr hsold) (by rw [he, hs])

/-- C2 witness: the SOLD row of the fixture survives the concrete operation
sequence c2ops unchanged and remains the unique row with its key. -/
theorem c2_sold_terminal_witness :
    fixSold "S1" 9 ∈ (applyOps c2db c2ops).seats ∧
    ∀ r2 ∈ (applyOps c2db c2ops).seats, r2.eventId = (fixSold "S1" 9).eventId →
      r2.seatId = (fixSold "S1" 9).seatId → r2 = fixSold "S1" 9 :=
  c2_sold_terminal c2db c2ops (fixSold "S1" 9) (by decide) (by decide) (by decide)



/-- Auxiliary: with pairwise distinct hold ids, findById of a present hold
returns exactly that hold. -/
theorem find?_id_of_mem (l : List Hold) (hnd : (l.map (fun h => h.id)).Nodup)
    (h0 : Hold) (hm : h0 ∈ l) : l.find? (fun h => h.id == h0.id) = some h0 := by
  induction l with
  | nil => cases hm
  | cons x rest ih =>
    rw [List.map_cons, List.nodup_cons] at hnd
    rcases List.mem_cons.mp hm with heq | hmem
    · subst heq
      exact List.find?_cons_of_pos _ (by simp)
    · have hx : (x.id == h0.id) = false := by
        simp only [beq_eq_false_iff_ne, ne_eq]
        intro hcontra
        exact hnd.1 (hcontra ▸ List.mem_map_of_mem (fun h => h.id) hmem)
      rw [List.find?_cons_of_neg _ (by simp [hx])]
      exact ih hnd.2 hmem

/-- Auxiliary: membership in the set-insert step of the JavaScript union. -/
theorem insertUnique_mem (a : List String) (x s : String) :
    s ∈ insertUnique a x ↔ s ∈ a ∨ s = x := by
  simp only [insertUnique]
  split
  · rename_i h
    constructor
    · exact Or.inl
    · intro hs
      rcases hs with h1 | h1
      · exact h1
      · subst h1
        exact List.elem_iff.mp h
  · simp [List.mem_append]

/-- Auxiliary: membership in the JavaScript Array.from(new Set([...a, ...b])). -/
theorem unionList_mem (b : List String) :
    ∀ (a : List String) (s : String), s ∈ unionList a b ↔ s ∈ a ∨ s ∈ b := by
  induction b with
  | nil => intro a s; simp [unionList]
  | cons x rest ih =>
    intro a s
    simp only [unionList, List.foldl_cons] at *
    rw [ih (insertUnique a x) s, insertUnique_mem]
    simp only [List.mem_cons]
    tauto



/-- Auxiliary: a row the update filter does not match survives updateMany. -/
theorem mem_updateSeats_untouched (dbs : List SeatRow) (p : SeatRow → Bool)
    (f : SeatRow → SeatRow) (r : SeatRow) (hr : r ∈ dbs) (hp : p r = false) :
    r ∈ dbs.map (fun x => if p x then f x else x) := by
  have h2 : (fun x => if p x then f x else x) r = r := by simp [hp]
  have h3 := List.mem_map_of_mem (fun x => if p x then f x else x) hr
  rwa [h2] at h3

/-- Auxiliary: a row the update filter matches appears rewritten after
updateMany. -/
theorem mem_updateSeats_touched (dbs : List SeatRow) (p : SeatRow → Bool)
    (f : SeatRow → SeatRow) (r : SeatRow) (hr : r ∈ dbs) (hp : p r = true) :
    f r ∈ dbs.map (fun x => if p x then f x else x) := by
  have h2 : (fun x => if p x then f x else x) r = f r := by simp [hp]
  have h3 := List.mem_map_of_mem (fun x => if p x then f x else x) hr
  rwa [h2] at h3

/-- Auxiliary: the hold-extension path keeps invariant I5 provided every
requested seat is either already in the session hold (with the prior
correspondence) or AVAILABLE: the extended hold lists only seats that are
HELD under its id afterwards. -/
theorem extendHold_invariant (db : DB) (now : Nat) (inp : HoldSeatsInput)
    (seats : List SeatRow) (h0 : Hold) (db1 : DB) (h1 : Hold)
    (hsnap : seats = db.seats.filter (fun r =>
      r.eventId == inp.eventId && inp.seatIds.contains r.seatId))
    (hprior : ∀ s ∈ h0.seatIds, ∃ r, r ∈ db.seats ∧ r.eventId = inp.eventId ∧
      r.seatId = s ∧ r.status = SeatStatus.held ∧ r.holdId = some h0.id)
    (hreq : ∀ s ∈ inp.seatIds, s ∈ h0.seatIds ∨ ∃ r, r ∈ db.seats ∧
      r.eventId = inp.eventId ∧ r.seatId = s ∧ r.status = SeatStatus.available)
    (hok : extendHold db now inp seats h0 = (db1, Except.ok h1)) :
    h1.id = h0.id ∧
    ∀ s ∈ h1.seatIds, ∃ r, r ∈ db1.seats ∧ r.eventId = inp.eventId ∧
      r.seatId = s ∧ r.status = SeatStatus.held ∧ r.holdId = some h1.id := by
  subst hsnap
  simp only [extendHold] at hok
  split at hok
  · rename_i hempty
    simp only [finishExtend] at hok
    rw [Prod.mk.injEq] at hok
    obtain ⟨hdb, hh⟩ := hok
    have hh' := Except.ok.inj hh
    subst hh'
    subst hdb
    refine ⟨rfl, ?_⟩
    intro s hs
    have hs' := (unionList_mem inp.seatIds h0.seatIds s).mp hs
    rcases hs' with hsh | hsi
    · obtain ⟨r, hr, h2, h3, h4, h5⟩ := hprior s hsh
      exact ⟨r, hr, h2, h3, h4, h5⟩
    · by_cases hsh : s ∈ h0.seatIds
      · obtain ⟨r, hr, h2, h3, h4, h5⟩ := hprior s hsh
        exact ⟨r, hr, h2, h3, h4, h5⟩
      · rcases hreq s hsi with h | ⟨rs, hrs, hre, hrs2, hra⟩
        · obtain ⟨r, hr, h2, h3, h4, h5⟩ := hprior s h
          exact ⟨r, hr, h2, h3, h4, h5⟩
        · exfalso
          have hin : rs ∈ db.seats.filter (fun r =>
              r.eventId == inp.eventId && inp.seatIds.contains r.seatId) := by
            rw [List.mem_filter]
            refine ⟨hrs, ?_⟩
            simp only [Bool.and_eq_true, beq_iff_eq]
            exact ⟨hre, by rw [hrs2]; exact List.elem_iff.mpr hsi⟩
          have hin2 : rs ∈ (db.seats.filter (fun r =>
              r.eventId == inp.eventId && inp.seatIds.contains r.seatId)).filter
              (fun r => r.status == SeatStatus.available &&
                !(h0.seatIds.contains r.seatId)) := by
            rw [List.mem_filter]
            refine ⟨hin, ?_⟩
            simp only [Bool.and_eq_true, beq_iff_eq, Bool.not_eq_true']
            refine ⟨by simp [hra], ?_⟩
            rw [hrs2]
            cases hc : h0.seatIds.contains s with
            | false => rfl
            | true => exact (hsh (List.elem_iff.mp hc)).elim
          have hmm : rs.seatId ∈ ((db.seats.filter (fun r =>
              r.eventId == inp.eventId && inp.seatIds.contains r.seatId)).filter
              (fun r => r.status == SeatStatus.available &&
                !(h0.seatIds.contains r.seatId))).map (fun r => r.seatId) :=
            List.mem_map_of_mem _ hin2
          rw [List.isEmpty_iff] at hempty
          rw [hempty] at hmm
          cases hmm
  · rename_i hne
    split at hok
    · exact absurd (congrArg Prod.snd hok) (by simp)
    · simp only [finishExtend] at hok
      rw [Prod.mk.injEq] at hok
      obtain ⟨hdb, hh⟩ := hok
      have hh' := Except.ok.inj hh
      subst hh'
      subst hdb
      refine ⟨rfl, ?_⟩
      intro s hs
      have hs' := (unionList_mem inp.seatIds h0.seatIds s).mp hs
      have hcase0 : s ∈ h0.seatIds →
          ∃ r, r ∈ (updateSeats db (availIn inp.eventId
            (((db.seats.filter (fun r =>
              r.eventId == inp.eventId && inp.seatIds.contains r.seatId)).filter
              (fun r => r.status == SeatStatus.available &&
                !(h0.seatIds.contains r.seatId))).map (fun r => r.seatId)))
            (toHeld h0.id now)).fst.seats ∧
            r.eventId = inp.eventId ∧ r.seatId = s ∧ r.status = SeatStatus.held ∧
            r.holdId = some h0.id := by
        intro hsh
        obtain ⟨r, hr, h2, h3, h4, h5⟩ := hprior s hsh
        refine ⟨r, ?_, h2, h3, h4, h5⟩
        exact mem_updateSeats_untouched _ _ _ _ hr (by simp [availIn, h4])
      rcases hs' with hsh | hsi
      · exact hcase0 hsh
      · by_cases hsh : s ∈ h0.seatIds
        · exact hcase0 hsh
        · rcases hreq s hsi with h | ⟨rs, hrs, hre, hrs2, hra⟩
          · exact hcase0 h
          · have hin : rs ∈ db.seats.filter (fun r =>
                r.eventId == inp.eventId && inp.seatIds.contains r.seatId) := by
              rw [List.mem_filter]
              refine ⟨hrs, ?_⟩
              simp only [Bool.and_eq_true, beq_iff_eq]
              exact ⟨hre, by rw [hrs2]; exact List.elem_iff.mpr hsi⟩
            have hin2 : rs ∈ (db.seats.filter (fun r =>
                r.eventId == inp.eventId && inp.seatIds.contains r.seatId)).filter
                (fun r => r.status == SeatStatus.available &&
                  !(h0.seatIds.contains r.seatId)) := by
              rw [List.mem_filter]
              refine ⟨hin, ?_⟩
              simp only [Bool.and_eq_true, beq_iff_eq, Bool.not_eq_true']
              refine ⟨by simp [hra], ?_⟩
              rw [hrs2]
              cases hc : h0.seatIds.contains s with
              | false => rfl
              | true => exact (hsh (List.elem_iff.mp hc)).elim
            refine ⟨toHeld h0.id now rs, ?_, hre, hrs2, rfl, rfl⟩
            refine mem_updateSeats_touched _ _ _ _ hrs ?_
            simp only [availIn, Bool.and_eq_true, beq_iff_eq]
            refine ⟨⟨hre, ?_⟩, by simp [hra]⟩
            exact List.elem_iff.mpr (List.mem_map_of_mem _ hin2)



/-- Auxiliary: the opportunistic reclamation is the identity when no held
snapshot row points at a stale hold. -/
theorem staleReclaim_eq_of_no_stale (db : DB) (now e : Nat) (hs : List SeatRow)
    (h : ∀ r ∈ hs, isStaleHeld db now r = false) :
    staleReclaim db now e hs = db := by
  have hnil : staleSeatIdsOf db now hs = [] := by
    simp only [staleSeatIdsOf]
    rw [List.filter_eq_nil_iff.mpr (fun r hr => by rw [h r hr]; simp)]
    rfl
  simp [staleReclaim, hnil]

/-- C7 (amended): invariant I5 is maintained by a holdSeats call that extends
an existing live session hold provided every requested seat is either
already in that hold (with the correspondence holding beforehand) or
AVAILABLE: on success the returned hold has the same id and every seatId it
lists corresponds to a row HELD under it.  The restriction is forced by the
counterexample: requested seats that are SOLD (or stale-reclaimed) are
merged into the hold seatIds without being HELD, breaking I5 as claimed. -/
theorem c7_extension_invariant_amended (db : DB) (now : Nat) (inp : HoldSeatsInput)
    (h0 : Hold)
    (hkeys : (db.seats.map (fun x => (x.eventId, x.seatId))).Nodup)
    (hholds : (db.holds.map (fun h => h.id)).Nodup)
    (hfind : db.holds.find? (fun h =>
      h.eventId == inp.eventId && h.sessionId == inp.sessionId) = some h0)
    (hlive : ¬ h0.expiresAt < now)
    (hprior : ∀ s ∈ h0.seatIds, ∃ r, r ∈ db.seats ∧ r.eventId = inp.eventId ∧
      r.seatId = s ∧ r.status = SeatStatus.held ∧ r.holdId = some h0.id)
    (hreq : ∀ s ∈ inp.seatIds, s ∈ h0.seatIds ∨ ∃ r, r ∈ db.seats ∧
      r.eventId = inp.eventId ∧ r.seatId = s ∧ r.status = SeatStatus.available) :
    ∀ db1 h1, holdSeats db now inp = (db1, Except.ok h1) →
      h1.id = h0.id ∧
      ∀ s ∈ h1.seatIds, ∃ r, r ∈ db1.seats ∧ r.eventId = inp.eventId ∧
        r.seatId = s ∧ r.status = SeatStatus.held ∧ r.holdId = some h1.id := by
  intro db1 h1 hok
  have hheld : ∀ r, r ∈ db.seats → r.eventId = inp.eventId →
      r.seatId ∈ inp.seatIds → r.status = SeatStatus.held →
      r.holdId = some h0.id := by
    intro r hr he hs hst
    rcases hreq r.seatId hs with hinh0 | ⟨r2, hr2, he2, hs2, ha2⟩
    · obtain ⟨r3, hr3, he3, hs3, hst3, hid3⟩ := hprior _ hinh0
      have heq : r = r3 := List.inj_on_of_nodup_map hkeys hr hr3 (by rw [he, he3, hs3])
      rw [heq]
      exact hid3
    · have heq : r = r2 := List.inj_on_of_nodup_map hkeys hr hr2 (by rw [he, he2, hs2])
      rw [heq, ha2] at hst
      cases hst
  have hfindh0 : findHold db h0.id = some h0 :=
    find?_id_of_mem db.holds hholds h0 (List.mem_of_find?_eq_some hfind)
  have hsess : h0.sessionId = inp.sessionId := by
    have hp := List.find?_some hfind
    simp only [Bool.and_eq_true, beq_iff_eq] at hp
    exact hp.2
  have hrowfact : ∀ r ∈ (db.seats.filter (fun r =>
      r.eventId == inp.eventId && inp.seatIds.contains r.seatId)).filter
      (fun r => r.status == SeatStatus.held && r.holdId.isSome),
      r.holdId = some h0.id ∧ r.status = SeatStatus.held := by
    intro r hr
    have hq := List.of_mem_filter hr
    have hmem1 := List.mem_of_mem_filter hr
    have hp := List.of_mem_filter hmem1
    have hmem := List.mem_of_mem_filter hmem1
    simp only [Bool.and_eq_true, beq_iff_eq] at hq hp
    have hst : r.status = SeatStatus.held := hq.1
    have hsid : r.seatId ∈ inp.seatIds := List.elem_iff.mp hp.2
    exact ⟨hheld r hmem hp.1 hsid hst, hst⟩
  simp only [holdSeats] at hok
  split at hok
  · exact absurd (congrArg Prod.snd hok) (by simp)
  split at hok
  · exact absurd (congrArg Prod.snd hok) (by simp)
  split at hok
  · exact absurd (congrArg Prod.snd hok) (by simp)
  split at hok
  · exact absurd (congrArg Prod.snd hok) (by simp)
  split at hok
  · exact absurd (congrArg Prod.snd hok) (by simp)
  rw [staleReclaim_eq_of_no_stale db now inp.eventId _
    (fun r hr => by
      rw [isStaleHeld, (hrowfact r hr).1]
      simp only [hfindh0]
      simp [hlive])] at hok
  split at hok
  · rename_i hbl
    exfalso
    rw [List.filter_eq_nil_iff.mpr (fun r hr => by
      rw [(hrowfact r hr).1]
      simp only [hfindh0]
      simp [hsess])] at hbl
    simp at hbl
  rw [hfind] at hok
  exact extendHold_invariant db now inp _ h0 db1 h1 rfl hprior hreq hok

/-- C7 counterexample: session sess holds S1 under live hold 5; requesting
the SOLD seat S2 succeeds as an extension and merges S2 into the hold
seatIds while the SeatState row of S2 stays SOLD with no holdRef — the live
hold lists a seat that is not HELD under it, so the claimed correspondence
fails for extensions that include sold seats. -/
theorem c7_extension_invariant_counterexample :
    (holdSeats c7db 0 c7inp).snd =
      Except.ok
        { id := 5, eventId := 1, seatIds := ["S1", "S2"], sessionId := "sess",
          userId := none, expiresAt := 600000 } ∧
    (holdSeats c7db 0 c7inp).fst.seats = [fixHeld "S1" 5, fixSold "S2" 9] := by
  exact ⟨by decide, by decide⟩

/-- C7 witness: extending hold 5 with the AVAILABLE seat S2 on the concrete
fixture keeps I5: both listed seats are HELD under hold 5 afterwards. -/
theorem c7_extension_invariant_amended_witness :
    c7whold1.id = 5 ∧
    ∀ s ∈ c7whold1.seatIds, ∃ r, r ∈ c7wdb1.seats ∧ r.eventId = 1 ∧
      r.seatId = s ∧ r.status = SeatStatus.held ∧ r.holdId = some c7whold1.id :=
  c7_extension_invariant_amended c7wdb 0 c7inp (fixHold 5 ["S1"] "sess")
    (by decide) (by decide) (by decide) (by decide)
    (by intro s hs
        fin_cases hs
        exact ⟨fixHeld "S1" 5, by decide, by decide, by decide, by decide, by decide⟩)
    (by intro s hs
        fin_cases hs
        exact Or.inr ⟨fixAvail "S2", by decide, by decide, by decide, by decide⟩)
    c7wdb1 c7whold1 (by decide)



/-- Auxiliary: the seats after an updateMany. -/
theorem updateSeats_seats (db : DB) (p : SeatRow → Bool) (f : SeatRow → SeatRow) :
    (updateSeats db p f).fst.seats = db.seats.map (fun r => if p r then f r else r) :=
  rfl

/-- Auxiliary counting argument: when the conditional update matched as many
rows as there are requested (pairwise distinct) seat ids, every requested
seat id has a row of the event satisfying the extra condition. -/
theorem filter_covers (seats : List SeatRow) (e : Nat) (ids : List String)
    (q : SeatRow → Bool)
    (hkeys : (seats.map (fun r => (r.eventId, r.seatId))).Nodup)
    (hnd : ids.Nodup)
    (hlen : (seats.filter (fun r => r.eventId == e && ids.contains r.seatId && q r)).length
      = ids.length) :
    ∀ s ∈ ids, ∃ r, r ∈ seats ∧ r.eventId = e ∧ r.seatId = s ∧ q r = true := by
  intro s hs
  have hprop : ∀ r ∈ seats.filter
      (fun r => r.eventId == e && ids.contains r.seatId && q r),
      r.eventId = e ∧ r.seatId ∈ ids ∧ q r = true := by
    intro r hr
    have := List.of_mem_filter hr
    simp only [Bool.and_eq_true, beq_iff_eq] at this
    exact ⟨this.1.1, by simpa using this.1.2, this.2⟩
  have hsubL : ∀ r ∈ seats.filter
      (fun r => r.eventId == e && ids.contains r.seatId && q r), r ∈ seats :=
    fun r hr => List.mem_of_mem_filter hr
  have hkeysL : ((seats.filter
      (fun r => r.eventId == e && ids.contains r.seatId && q r)).map
        (fun r => (r.eventId, r.seatId))).Nodup :=
    ((List.filter_sublist seats).map (fun r => (r.eventId, r.seatId))).nodup hkeys
  have hndL : (seats.filter
      (fun r => r.eventId == e && ids.contains r.seatId && q r)).Nodup :=
    List.Nodup.of_map _ hkeysL
  have hinj : ∀ x ∈ seats.filter
      (fun r => r.eventId == e && ids.contains r.seatId && q r),
      ∀ y ∈ seats.filter
      (fun r => r.eventId == e && ids.contains r.seatId && q r),
      x.seatId = y.seatId → x = y := by
    intro x hx y hy hxy
    exact List.inj_on_of_nodup_map hkeysL hx hy
      (by rw [(hprop x hx).1, (hprop y hy).1, hxy])
  have hndS : ((seats.filter
      (fun r => r.eventId == e && ids.contains r.seatId && q r)).map
        (fun r => r.seatId)).Nodup :=
    List.Nodup.map_on hinj hndL
  have hsubS : ∀ t ∈ (seats.filter
      (fun r => r.eventId == e && ids.contains r.seatId && q r)).map
        (fun r => r.seatId), t ∈ ids := by
    intro t ht
    obtain ⟨r, hr, rfl⟩ := List.mem_map.mp ht
    exact (hprop r hr).2.1
  have hcards : ids.toFinset.card ≤ ((seats.filter
      (fun r => r.eventId == e && ids.contains r.seatId && q r)).map
        (fun r => r.seatId)).toFinset.card := by
    rw [List.toFinset_card_of_nodup hnd, List.toFinset_card_of_nodup hndS,
      List.length_map]
    exact le_of_eq hlen.symm
  have hfs : ((seats.filter
      (fun r => r.eventId == e && ids.contains r.seatId && q r)).map
        (fun r => r.seatId)).toFinset = ids.toFinset := by
    apply Finset.eq_of_subset_of_card_le
    · intro t ht
      rw [List.mem_toFinset] at ht ⊢
      exact hsubS t ht
    · exact hcards
  have hsin : s ∈ (seats.filter
      (fun r => r.eventId == e && ids.contains r.seatId && q r)).map
        (fun r => r.seatId) := by
    rw [← List.mem_toFinset, hfs, List.mem_toFinset]
    exact hs
  obtain ⟨r, hr, rfl⟩ := List.mem_map.mp hsin
  exact ⟨r, hsubL r hr, (hprop r hr).1, rfl, (hprop r hr).2.2⟩

/-- C4 (amended): on a PENDING order, a successful finalizeOrder makes every
seat of the order SOLD under it; when the conditional updateMany matches
fewer rows than the order has seats, the call fails with SEAT_CONFLICT
(409), the order stays PENDING and no tickets are created — but the seats
the update did flip become SOLD under this order rather than being
reverted, so the flip is not all-or-nothing. -/
theorem c4_finalize_amended (db : DB) (now orderId : Nat) (o0 : OrderDoc)
    (hkeys : (db.seats.map (fun x => (x.eventId, x.seatId))).Nodup)
    (hnd : o0.seatIds.Nodup)
    (ho : findOrder db orderId = some o0)
    (hpend : o0.paymentStatus = PaymentStatus.pending) :
    (∀ db1 o, finalizeOrder db now orderId = (db1, Except.ok o) →
      ∀ s ∈ o0.seatIds, ∃ r, r ∈ db1.seats ∧ r.eventId = o0.eventId ∧
        r.seatId = s ∧ r.status = SeatStatus.sold ∧ r.orderId = some o0.id) ∧
    ((db.seats.filter (notSoldIn o0.eventId o0.seatIds)).length ≠ o0.seatIds.length →
      finalizeOrder db now orderId =
        ((updateSeats db (notSoldIn o0.eventId o0.seatIds) (toSold o0.id now)).fst,
         Except.error AppErr.seatAlreadySold) ∧
      statusCode AppErr.seatAlreadySold = 409 ∧
      findOrder (updateSeats db (notSoldIn o0.eventId o0.seatIds) (toSold o0.id now)).fst
        orderId = some o0 ∧
      (updateSeats db (notSoldIn o0.eventId o0.seatIds) (toSold o0.id now)).fst.tickets
        = db.tickets ∧
      ∀ r ∈ db.seats, r.eventId = o0.eventId → r.seatId ∈ o0.seatIds →
        r.status ≠ SeatStatus.sold →
        toSold o0.id now r ∈
          (updateSeats db (notSoldIn o0.eventId o0.seatIds) (toSold o0.id now)).fst.seats) := by
  have hb : (o0.paymentStatus == PaymentStatus.succeeded) = false := by
    simp [hpend]
  constructor
  · intro db1 o hfin s hs
    simp only [finalizeOrder, ho, hb, Bool.false_eq_true, if_false] at hfin
    obtain ⟨_, _, _, _, _, _, hseats, hcnt⟩ := finalizeSeatsCommit_ok db now o0 db1 o hfin
    have hlen : (db.seats.filter (fun r => r.eventId == o0.eventId &&
        o0.seatIds.contains r.seatId && r.status != SeatStatus.sold)).length =
        o0.seatIds.length := hcnt
    obtain ⟨r, hr, hre, hrs, hq⟩ := filter_covers db.seats o0.eventId o0.seatIds
      (fun r => r.status != SeatStatus.sold) hkeys hnd hlen s hs
    refine ⟨toSold o0.id now r, ?_, hre, hrs, rfl, rfl⟩
    rw [hseats, updateSeats_seats]
    refine mem_updateSeats_touched _ _ _ _ hr ?_
    simp only [notSoldIn, Bool.and_eq_true, beq_iff_eq]
    exact ⟨⟨hre, by rw [hrs]; exact List.elem_iff.mpr hs⟩, hq⟩
  · intro hne
    have hbne : ((updateSeats db (notSoldIn o0.eventId o0.seatIds) (toSold o0.id now)).snd
        != o0.seatIds.length) = true := by
      simp only [bne_iff_ne, ne_eq]
      exact hne
    refine ⟨?_, rfl, ho, rfl, ?_⟩
    · simp only [finalizeOrder, ho, hb, Bool.false_eq_true, if_false,
        finalizeSeatsCommit, hbne, if_true]
    · intro r hr hre hrs hnsold
      rw [updateSeats_seats]
      refine mem_updateSeats_touched _ _ _ _ hr ?_
      simp only [notSoldIn, Bool.and_eq_true, beq_iff_eq]
      refine ⟨⟨hre, List.elem_iff.mpr hrs⟩, ?_⟩
      · simp only [bne_iff_ne, ne_eq]
        exact hnsold



/-- Auxiliary: the cache write does not touch seats. -/
theorem cacheSet_seats (db : DB) (entry : CacheEntry) :
    (cacheSet db entry).seats = db.seats := rfl

/-- Auxiliary: deleting a hold row does not touch seats. -/
theorem deleteHold_seats (db : DB) (hid : Nat) :
    (deleteHold db hid).seats = db.seats := rfl

/-- C1 (amended): the fresh-hold commit of holdSeats.  On success every
requested seat is HELD under the returned hold id.  When the conditional
bulk update flips fewer seats than requested (possible only under
interference between the availability check and the commit), the operation
deletes the Hold row it created, leaves the cache untouched and fails with
SEAT_CONFLICT (409) — but every requested seat that was AVAILABLE in the
commit-time state remains flipped to HELD under the now-deleted hold id:
the rollback does not revert the seats it flipped. -/
theorem c1_commit_amended (db : DB) (now : Nat) (inp : HoldSeatsInput)
    (hkeys : (db.seats.map (fun x => (x.eventId, x.seatId))).Nodup)
    (hnd : inp.seatIds.Nodup) :
    (∀ db1 h, createHoldCommit db now inp = (db1, Except.ok h) →
      h.id = db.nextHoldId ∧
      ∀ s ∈ inp.seatIds, ∃ r, r ∈ db1.seats ∧ r.eventId = inp.eventId ∧
        r.seatId = s ∧ r.status = SeatStatus.held ∧ r.holdId = some h.id) ∧
    (∀ db1 e, createHoldCommit db now inp = (db1, Except.error e) →
      e = AppErr.concurrentModification ∧ statusCode e = 409 ∧
      (∀ hh ∈ db1.holds, hh ∈ db.holds) ∧
      db1.cache = db.cache ∧
      ∀ r ∈ db.seats, r.eventId = inp.eventId → r.seatId ∈ inp.seatIds →
        r.status = SeatStatus.available →
        toHeld db.nextHoldId now r ∈ db1.seats) := by
  constructor
  · intro db1 h hok
    simp only [createHoldCommit] at hok
    split at hok
    · exact absurd (congrArg Prod.snd hok) (by simp)
    · rename_i hcnt
      rw [Prod.mk.injEq] at hok
      obtain ⟨hdb, hh⟩ := hok
      have hh' := Except.ok.inj hh
      subst hh'
      subst hdb
      refine ⟨rfl, ?_⟩
      intro s hs
      have hlen : (db.seats.filter (fun r => r.eventId == inp.eventId &&
          inp.seatIds.contains r.seatId && r.status == SeatStatus.available)).length =
          inp.seatIds.length := by
        have h2 := hcnt
        simp only [bne_iff_ne, ne_eq, Decidable.not_not] at h2
        exact h2
      obtain ⟨r, hr, hre, hrs, hq⟩ := filter_covers db.seats inp.eventId inp.seatIds
        (fun r => r.status == SeatStatus.available) hkeys hnd hlen s hs
      refine ⟨toHeld db.nextHoldId now r, ?_, hre, hrs, rfl, rfl⟩
      rw [cacheSet_seats, updateSeats_seats]
      refine mem_updateSeats_touched _ _ _ _ hr ?_
      simp only [availIn, Bool.and_eq_true, beq_iff_eq]
      exact ⟨⟨hre, by rw [hrs]; exact List.elem_iff.mpr hs⟩, beq_iff_eq.mp hq⟩
  · intro db1 e hok
    simp only [createHoldCommit] at hok
    split at hok
    · rw [Prod.mk.injEq] at hok
      obtain ⟨hdb, he⟩ := hok
      have he' := Except.error.inj he
      subst he'
      subst hdb
      refine ⟨rfl, rfl, ?_, rfl, ?_⟩
      · intro hh hmm
        have hmm2 := List.mem_of_mem_filter hmm
        have hfl := List.of_mem_filter hmm
        rcases List.mem_append.mp hmm2 with h1 | h1
        · exact h1
        · exfalso
          have heq := List.mem_singleton.mp h1
          rw [heq] at hfl
          simp at hfl
      · intro r hr hre hrs hav
        rw [deleteHold_seats, updateSeats_seats]
        refine mem_updateSeats_touched _ _ _ _ hr ?_
        simp only [availIn, Bool.and_eq_true, beq_iff_eq]
        exact ⟨⟨hre, List.elem_iff.mpr hrs⟩, by simp [hav]⟩
    · exact absurd (congrArg Prod.snd hok) (by simp)

/-- C1 counterexample: committed against a state where S2 was taken between
check and commit, the bulk update flips only S1; the operation deletes the
Hold row and fails with 409, but seat S1 is left HELD under the deleted hold
id 100 instead of being reverted to AVAILABLE — the claimed revert of
flipped seats does not happen. -/
theorem c1_rollback_counterexample :
    (createHoldCommit c1db 0 c1inp).snd = Except.error AppErr.concurrentModification ∧
    statusCode AppErr.concurrentModification = 409 ∧
    (createHoldCommit c1db 0 c1inp).fst.holds = c1db.holds ∧
    (createHoldCommit c1db 0 c1inp).fst.seats =
      [{ eventId := 1, seatId := "S1", status := SeatStatus.held, holdId := some 100,
         orderId := none, lastUpdated := 0 }, fixHeld "S2" 3] := by
  refine ⟨by decide, rfl, by decide, by decide⟩

/-- C1 witness: the amended theorem applied to a clean commit over two
available seats — S1 ends HELD under the granted hold. -/
theorem c1_commit_amended_witness :
    ∃ r, r ∈ c1wdb1.seats ∧ r.eventId = 1 ∧ r.seatId = "S1" ∧
      r.status = SeatStatus.held ∧ r.holdId = some c1whold.id :=
  ((c1_commit_amended c1wdb 0 c1inp (by decide) (by decide)).1 c1wdb1 c1whold
    (by decide)).2 "S1" (by decide)

/-- C4 counterexample: finalizing a PENDING order over S1 (held) and S2
(already sold to order 9) fails with SEAT_CONFLICT, the order stays PENDING
and no ticket exists — yet seat S1 has been flipped to SOLD under order 20,
so neither every seat nor no seat of the order became SOLD under it. -/
theorem c4_finalize_partial_counterexample :
    (finalizeOrder c4db 0 20).snd = Except.error AppErr.seatAlreadySold ∧
    statusCode AppErr.seatAlreadySold = 409 ∧
    (finalizeOrder c4db 0 20).fst.seats =
      [{ eventId := 1, seatId := "S1", status := SeatStatus.sold, holdId := some 5,
         orderId := some 20, lastUpdated := 0 }, fixSold "S2" 9] ∧
    (findOrder (finalizeOrder c4db 0 20).fst 20).map (fun o => o.paymentStatus) =
      some PaymentStatus.pending ∧
    (finalizeOrder c4db 0 20).fst.tickets = [] := by
  refine ⟨by decide, rfl, by decide, by decide, by decide⟩

/-- C4 witness: the amended theorem applied to the concrete partial-flip
fixture: the call fails 409 with the state being exactly the conditional
flip of the non-sold order seats. -/
theorem c4_finalize_amended_witness :
    finalizeOrder c4db 0 20 =
      ((updateSeats c4db (notSoldIn c4ord.eventId c4ord.seatIds) (toSold c4ord.id 0)).fst,
       Except.error AppErr.seatAlreadySold) ∧
    statusCode AppErr.seatAlreadySold = 409 :=
  have h := (c4_finalize_amended c4db 0 20 c4ord (by decide) (by decide) (by decide)
    (by decide)).2 (by decide)
  ⟨h.1, h.2.1⟩

end TikiTaka
